import Mathlib

/-!
Verification of the AI-backend request-coalescing / response-caching /
connection-pooling core (files cache.py, deduplicator.py,
connection_manager.py of the ai-backend service).

The Python source is shallowly embedded: pure helpers become Lean
functions over `List Char` / `String`, the Redis backing store becomes an
association list, async operations become explicit state passing, and the
deduplicator's cooperative event-loop concurrency becomes a small-step
machine over interleaved event traces.  Library functions that the code
calls (hashlib digests, Python float repr) are modelled as explicit
function parameters; where a theorem needs a property of them (such as
collision-freedom of a digest) it is taken as a hypothesis and discharged
concretely in the accompanying witness.
-/

/-! ## Python string helpers

`prompt.strip().lower()` and `str.split()` as used by cache.py and
deduplicator.py.  Whitespace is the ASCII whitespace set Python strips;
lowercasing is per-character (the source only ever feeds ASCII model
names and prompts through these).
-/

def pyIsSpace (c : Char) : Bool :=
  c = ' ' || c = '\t' || c = '\n' || c = '\r' || c = '\x0b' || c = '\x0c'

def stripChars (l : List Char) : List Char :=
  ((l.dropWhile pyIsSpace).reverse.dropWhile pyIsSpace).reverse

def pyStrip (s : String) : String :=
  String.mk (stripChars s.data)

def pyLower (s : String) : String :=
  String.mk (s.data.map Char.toLower)

/-- Normalized prompt, `prompt.strip().lower()`, shared by
`RequestDeduplicator._get_request_key` and the two cache key helpers. -/
def pyNorm (s : String) : String :=
  pyLower (pyStrip s)

/-- `str.split()`: split on runs of whitespace, discarding empty pieces. -/
def splitWsGo : List Char → List Char → List String
  | acc, [] => if acc.isEmpty then [] else [String.mk acc.reverse]
  | acc, c :: rest =>
    if pyIsSpace c then
      if acc.isEmpty then splitWsGo [] rest
      else String.mk acc.reverse :: splitWsGo [] rest
    else splitWsGo (c :: acc) rest

def splitWs (s : String) : List String :=
  splitWsGo [] s.data

/-! ## Decimal digits

`json.dumps` prints the integer `max_tokens` in decimal.  The printer is
given explicit fuel so it reduces in the kernel; `natChars` supplies
enough fuel for any input. -/

def digitCh (d : Nat) : Char :=
  Char.ofNat (48 + d)

def natCharsF : Nat → Nat → List Char
  | 0, _ => []
  | fuel + 1, n =>
    if n < 10 then [digitCh n]
    else natCharsF fuel (n / 10) ++ [digitCh (n % 10)]

def natChars (n : Nat) : List Char :=
  natCharsF (n + 1) n

/-- Decimal value of a digit string, used to invert `natChars`. -/
def charsVal (l : List Char) : Nat :=
  l.foldl (fun a c => a * 10 + (c.toNat - 48)) 0

theorem digitCh_toNat (d : Nat) (hd : d < 10) : (digitCh d).toNat = 48 + d := by
  interval_cases d <;> decide

theorem charsVal_append_digit (l : List Char) (d : Nat) (hd : d < 10) :
    charsVal (l ++ [digitCh d]) = 10 * charsVal l + d := by
  simp [charsVal, List.foldl_append, digitCh_toNat d hd]
  omega

theorem natCharsF_fuel (f₁ : Nat) : ∀ f₂ n, n < f₁ → n < f₂ →
    natCharsF f₁ n = natCharsF f₂ n := by
  induction f₁ with
  | zero => intro f₂ n h; omega
  | succ f ih =>
    intro f₂ n h₁ h₂
    cases f₂ with
    | zero => omega
    | succ g =>
      by_cases hn : n < 10
      · simp [natCharsF, hn]
      · have hdiv : n / 10 < n := Nat.div_lt_self (by omega) (by omega)
        simp only [natCharsF, hn, if_false]
        rw [ih g (n / 10) (by omega) (by omega)]

theorem charsVal_natCharsF : ∀ fuel n, n < fuel → charsVal (natCharsF fuel n) = n := by
  intro fuel
  induction fuel with
  | zero => intro n h; omega
  | succ f ih =>
    intro n h
    by_cases hn : n < 10
    · have : charsVal ([] ++ [digitCh n]) = 10 * charsVal [] + n :=
        charsVal_append_digit [] n hn
      simpa [natCharsF, hn, charsVal] using this
    · have hdiv : n / 10 < n := Nat.div_lt_self (by omega) (by omega)
      have hmod : n % 10 < 10 := Nat.mod_lt _ (by omega)
      simp only [natCharsF, hn, if_false]
      rw [charsVal_append_digit _ _ hmod, ih (n / 10) (by omega)]
      omega

theorem natChars_injective : Function.Injective natChars := by
  intro a b h
  have ha := charsVal_natCharsF (a + 1) a (by omega)
  have hb := charsVal_natCharsF (b + 1) b (by omega)
  rw [show natCharsF (a + 1) a = natChars a from rfl] at ha
  rw [show natCharsF (b + 1) b = natChars b from rfl] at hb
  rw [h] at ha
  omega

/-! ## JSON string escaping

The escaping `json.dumps` applies to the string values this code
serializes: a backslash is put before `"` and `\`.  (Real `json.dumps`
additionally escapes control and non-ASCII characters; that does not
affect determinism or injectivity and the source never relies on it.) -/

def escSpecial (c : Char) : Bool :=
  c = '"' || c = '\\'

def escChars : List Char → List Char
  | [] => []
  | c :: cs => if escSpecial c then '\\' :: c :: escChars cs else c :: escChars cs

theorem escChars_ne_nil (c : Char) (cs : List Char) : escChars (c :: cs) ≠ [] := by
  by_cases h : escSpecial c <;> simp [escChars, h]

theorem escChars_injective : Function.Injective escChars := by
  intro a
  induction a with
  | nil =>
    intro b h
    cases b with
    | nil => rfl
    | cons c cs => exact absurd h.symm (escChars_ne_nil c cs)
  | cons c cs ih =>
    intro b h
    cases b with
    | nil => exact absurd h (escChars_ne_nil c cs)
    | cons d ds =>
      by_cases hc : escSpecial c <;> by_cases hd : escSpecial d
      · simp only [escChars, hc, hd, if_true] at h
        obtain ⟨h₁, h₂⟩ := by simpa using h
        rw [h₁, ih h₂]
      · simp only [escChars, hc, hd, if_true, if_false] at h
        obtain ⟨h₁, -⟩ := by simpa using h
        rw [← h₁] at hd
        simp [escSpecial] at hd
      · simp only [escChars, hc, hd, if_true, if_false] at h
        obtain ⟨h₁, -⟩ := by simpa using h
        rw [h₁] at hc
        simp [escSpecial] at hc
      · simp only [escChars, hc, hd, if_false] at h
        obtain ⟨h₁, h₂⟩ := by simpa using h
        rw [h₁, ih h₂]

/-! ## Redis KEYS glob matching

`redis.keys(pattern)` matches keys against a glob pattern.  The patterns
the source uses contain only literal characters and a single `*` (which
matches any character sequence); `?` matches one character.  The matcher
carries explicit fuel so it reduces in the kernel; `globMatch` supplies
sufficient fuel. -/

def globMatchF : Nat → List Char → List Char → Bool
  | 0, _, _ => false
  | _ + 1, [], s => s.isEmpty
  | fuel + 1, p :: ps, s =>
    if p = '*' then
      match s with
      | [] => globMatchF fuel ps []
      | _ :: ss => globMatchF fuel ps s || globMatchF fuel (p :: ps) ss
    else
      match s with
      | [] => false
      | c :: ss => (p = c || p = '?') && globMatchF fuel ps ss

def globMatch (p s : List Char) : Bool :=
  globMatchF (p.length + s.length + 1) p s

theorem globMatchF_fuel : ∀ f₁ f₂ p s, p.length + s.length < f₁ →
    p.length + s.length < f₂ → globMatchF f₁ p s = globMatchF f₂ p s := by
  intro f₁
  induction f₁ with
  | zero => intro f₂ p s h; omega
  | succ f ih =>
    intro f₂ p s h₁ h₂
    cases f₂ with
    | zero => omega
    | succ g =>
      cases p with
      | nil => simp [globMatchF]
      | cons p₀ ps =>
        by_cases hstar : p₀ = '*'
        · subst hstar
          cases s with
          | nil =>
            simp only [globMatchF, if_pos rfl]
            exact ih g ps [] (by simp at h₁ ⊢; omega) (by simp at h₂ ⊢; omega)
          | cons c ss =>
            simp only [globMatchF, if_pos rfl]
            rw [ih g ps (c :: ss) (by simp at h₁ ⊢; omega) (by simp at h₂ ⊢; omega),
              ih g ('*' :: ps) ss (by simp at h₁ ⊢; omega) (by simp at h₂ ⊢; omega)]
            simp
        · cases s with
          | nil => simp only [globMatchF, if_neg hstar]
          | cons c ss =>
            simp only [globMatchF, if_neg hstar]
            rw [ih g ps ss (by simp at h₁ ⊢; omega) (by simp at h₂ ⊢; omega)]

theorem globMatchF_succ_cons (fuel : Nat) (p₀ : Char) (ps : List Char) (c : Char)
    (ss : List Char) (hstar : p₀ ≠ '*') :
    globMatchF (fuel + 1) (p₀ :: ps) (c :: ss) =
      ((p₀ = c || p₀ = '?') && globMatchF fuel ps ss) := by
  simp [globMatchF, if_neg hstar]

theorem globMatchF_succ_star_cons (fuel : Nat) (ps : List Char) (c : Char)
    (ss : List Char) :
    globMatchF (fuel + 1) ('*' :: ps) (c :: ss) =
      (globMatchF fuel ps (c :: ss) || globMatchF fuel ('*' :: ps) ss) := by
  simp [globMatchF]

theorem globMatchF_succ_cons_nil (fuel : Nat) (p₀ : Char) (ps : List Char)
    (hstar : p₀ ≠ '*') : globMatchF (fuel + 1) (p₀ :: ps) [] = false := by
  simp [globMatchF, if_neg hstar]

theorem globMatch_cons_cons (p₀ : Char) (ps : List Char) (c : Char) (ss : List Char)
    (hstar : p₀ ≠ '*') :
    globMatch (p₀ :: ps) (c :: ss) = ((p₀ = c || p₀ = '?') && globMatch ps ss) := by
  unfold globMatch
  rw [globMatchF_succ_cons _ _ _ _ _ hstar,
    globMatchF_fuel ((p₀ :: ps).length + (c :: ss).length) (ps.length + ss.length + 1)
      ps ss (by simp; omega) (by omega)]

theorem globMatch_star_cons (ps : List Char) (c : Char) (ss : List Char) :
    globMatch ('*' :: ps) (c :: ss) =
      (globMatch ps (c :: ss) || globMatch ('*' :: ps) ss) := by
  unfold globMatch
  rw [globMatchF_succ_star_cons]
  have h₁ := globMatchF_fuel (('*' :: ps).length + (c :: ss).length)
    (ps.length + (c :: ss).length + 1) ps (c :: ss)
    (by simp only [List.length_cons]; omega) (by omega)
  have h₂ := globMatchF_fuel (('*' :: ps).length + (c :: ss).length)
    (('*' :: ps).length + ss.length + 1) ('*' :: ps) ss
    (by simp only [List.length_cons]; omega) (by simp only [List.length_cons]; omega)
  rw [h₁, h₂]

theorem globMatch_cons_nil (p₀ : Char) (ps : List Char) (hstar : p₀ ≠ '*') :
    globMatch (p₀ :: ps) [] = false := by
  unfold globMatch
  rw [globMatchF_succ_cons_nil _ _ _ hstar]

theorem globMatchF_succ_star_nil (fuel : Nat) (ps : List Char) :
    globMatchF (fuel + 1) ('*' :: ps) [] = globMatchF fuel ps [] := by
  simp [globMatchF]

theorem globMatch_star_nil (ps : List Char) : globMatch ('*' :: ps) [] = globMatch ps [] := by
  unfold globMatch
  rw [globMatchF_succ_star_nil]
  exact globMatchF_fuel _ _ ps [] (by simp only [List.length_cons]; omega) (by omega)

/-- A glob whose remainder still requires a literal colon cannot match a
string containing no colon. -/
theorem globMatch_star_colon (ps : List Char) :
    ∀ s : List Char, (∀ c ∈ s, c ≠ ':') → globMatch ('*' :: ':' :: ps) s = false := by
  intro s
  induction s with
  | nil =>
    intro _
    rw [globMatch_star_nil]
    exact globMatch_cons_nil ':' ps (by decide)
  | cons c ss ih =>
    intro hs
    rw [globMatch_star_cons, globMatch_cons_cons ':' ps c ss (by decide)]
    have hc : c ≠ ':' := hs c (List.mem_cons_self c ss)
    have h₁ : ((':' = c || ':' = '?') : Bool) = false := by
      have : (':' : Char) ≠ c := fun h => hc h.symm
      simp [this]
    rw [h₁]
    simp only [Bool.false_and, Bool.false_or]
    exact ih fun d hd => hs d (List.mem_cons_of_mem c hd)

/-- Matching a shared literal (star- and question-free) prefix leaves the
remainders to match. -/
theorem globMatch_consume_lit :
    ∀ lit : List Char, (∀ c ∈ lit, c ≠ '*' ∧ c ≠ '?') →
    ∀ P S : List Char, globMatch (lit ++ P) (lit ++ S) = globMatch P S := by
  intro lit
  induction lit with
  | nil => intro _ P S; rfl
  | cons c cs ih =>
    intro hlit P S
    have hc := hlit c (List.mem_cons_self c cs)
    rw [List.cons_append, List.cons_append, globMatch_cons_cons c _ c _ hc.1]
    simp only [decide_eq_true_eq, eq_self_iff_true, Bool.true_or, Bool.true_and,
      decide_True, if_true]
    exact ih (fun d hd => hlit d (List.mem_cons_of_mem c hd)) P S

/-! ## JSON values written and read by cache.py

The cache stores two shapes of JSON text: `json.dumps(response)` for a
string response, and `json.dumps(similarity_data)` for the similarity
record dict.  Both are modelled concretely; `json.loads` is modelled by
parsers that accept exactly these shapes and fail (raise) on anything
else, mirroring that a malformed stored value makes the Python read path
raise inside its try block. -/

def jsonDumpsStr (s : String) : String :=
  String.mk ('"' :: (escChars s.data ++ ['"']))

def unescGo : List Char → List Char → Option String
  | _, [] => none
  | acc, c :: rest =>
    if c = '"' then (if rest.isEmpty then some (String.mk acc.reverse) else none)
    else if c = '\\' then
      match rest with
      | [] => none
      | d :: rest' => if escSpecial d then unescGo (d :: acc) rest' else none
    else unescGo (c :: acc) rest

def jsonLoadsStr (s : String) : Option String :=
  match s.data with
  | [] => none
  | c :: rest => if c = '"' then unescGo [] rest else none

/-- The similarity record written by `AIResponseCache.set`:
`{'prompt': ..., 'response': ..., 'timestamp': time.time()}`. -/
structure SimRecord where
  prompt : String
  response : String
  timestamp : ℚ
deriving DecidableEq

/-- Decimal-ish rendering of the float timestamp (Python float reprs are
injective; any injective rendering serves the model). -/
def ratRepr (q : ℚ) : String :=
  let num := if q.num < 0 then String.mk ('-' :: natChars q.num.natAbs)
    else String.mk (natChars q.num.natAbs)
  if q.den = 1 then num else num ++ "/" ++ String.mk (natChars q.den)

def simDumps (r : SimRecord) : String :=
  "\x7b\"prompt\": " ++ jsonDumpsStr r.prompt ++ ", \"response\": " ++
    jsonDumpsStr r.response ++ ", \"timestamp\": " ++ ratRepr r.timestamp ++ "\x7d"

def parseLit : List Char → List Char → Option (List Char)
  | [], s => some s
  | _ :: _, [] => none
  | e :: es, c :: cs => if c = e then parseLit es cs else none

def parseStrBody : List Char → List Char → Option (String × List Char)
  | _, [] => none
  | acc, c :: rest =>
    if c = '"' then some (String.mk acc.reverse, rest)
    else if c = '\\' then
      match rest with
      | [] => none
      | d :: rest' => if escSpecial d then parseStrBody (d :: acc) rest' else none
    else parseStrBody (c :: acc) rest

def parseJStr : List Char → Option (String × List Char)
  | [] => none
  | c :: rest => if c = '"' then parseStrBody [] rest else none

def parseDigits (l : List Char) : Option Nat :=
  if l ≠ [] ∧ l.all (fun c => 48 ≤ c.toNat ∧ c.toNat ≤ 57) then some (charsVal l)
  else none

def ratParse (l : List Char) : Option ℚ :=
  let signed : Bool × List Char :=
    match l with
    | c :: rest => if c = '-' then (true, rest) else (false, l)
    | [] => (false, [])
  let body := signed.2
  let pieces := body.span (fun c => c ≠ '/')
  match pieces.2 with
  | [] => (parseDigits pieces.1).map (fun n => if signed.1 then -(n : ℚ) else (n : ℚ))
  | _ :: den =>
    match parseDigits pieces.1, parseDigits den with
    | some n, some d => some ((if signed.1 then -(n : ℚ) else (n : ℚ)) / (d : ℚ))
    | _, _ => none

def simLoads (s : String) : Option SimRecord := do
  let r₀ ← parseLit ("\x7b\"prompt\": ").data s.data
  let (p, r₁) ← parseJStr r₀
  let r₂ ← parseLit (", \"response\": ").data r₁
  let (resp, r₃) ← parseJStr r₂
  let r₄ ← parseLit (", \"timestamp\": ").data r₃
  let pieces := r₄.span (fun c => ¬(c = ',' || c = '\x7d'))
  let q ← ratParse pieces.1
  match pieces.2 with
  | ['\x7d'] => some ⟨p, resp, q⟩
  | _ => none

/-! ## The Redis backing store

An association list from key to (value, remaining TTL), with the
operations cache.py issues: GET, SETEX, DELETE and KEYS.  An unhealthy
connection models one on which every command raises. -/

abbrev RedisStore : Type := List (String × String × Nat)

def rfind (store : RedisStore) (k : String) : Option (String × Nat) :=
  ((List.find? (fun kv => kv.1 = k) store).map (fun kv => kv.2))

def rsetex (store : RedisStore) (k : String) (ttl : Nat) (v : String) : RedisStore :=
  (List.filter (fun kv => kv.1 ≠ k) store) ++ [(k, v, ttl)]

def rdel (store : RedisStore) (ks : List String) : RedisStore :=
  List.filter (fun kv => kv.1 ∉ ks) store

def rkeys (store : RedisStore) (pattern : String) : List String :=
  (store.map (fun kv => kv.1)).filter (fun k => globMatch pattern.data k.data)

structure RedisConn where
  store : RedisStore
  healthy : Bool

structure CacheStats where
  cache_hits : Nat
  cache_misses : Nat
  cache_sets : Nat
  cache_errors : Nat
deriving DecidableEq

def bumpHits (s : CacheStats) : CacheStats := { s with cache_hits := s.cache_hits + 1 }

def bumpMisses (s : CacheStats) : CacheStats := { s with cache_misses := s.cache_misses + 1 }

def bumpSets (s : CacheStats) : CacheStats := { s with cache_sets := s.cache_sets + 1 }

def bumpErrors (s : CacheStats) : CacheStats := { s with cache_errors := s.cache_errors + 1 }

/-! ## AIResponseCache (cache.py) -/

structure AIResponseCache where
  redis : Option RedisConn
  default_ttl : Nat
  similarity_threshold : ℚ
  stats : CacheStats

namespace AIResponseCache

variable (md5hex : String → String)

/-- `AIResponseCache._get_cache_key`: MD5 of `normalized_prompt:model`
under the `ai_response:` namespace.  The digest function is a
parameter. -/
def get_cache_key (prompt model : String) : String :=
  "ai_response:" ++ md5hex (pyNorm prompt ++ (":" ++ model))

/-- `AIResponseCache._get_similarity_key`: MD5 of
`similarity:normalized_prompt:model` under `ai_similarity:`. -/
def get_similarity_key (prompt model : String) : String :=
  "ai_similarity:" ++ md5hex ("similarity:" ++ (pyNorm prompt ++ (":" ++ model)))

/-- `AIResponseCache.get`: exact-match lookup.  Returns the parsed cached
response and the updated client state (hit/miss/error counters). -/
def get (c : AIResponseCache) (prompt model : String) : Option String × AIResponseCache :=
  match c.redis with
  | none => (none, c)
  | some conn =>
    if conn.healthy then
      match rfind conn.store (get_cache_key md5hex prompt model) with
      | some (v, _) =>
        if v = "" then (none, { c with stats := bumpMisses c.stats })
        else
          match jsonLoadsStr v with
          | some x => (some x, { c with stats := bumpHits c.stats })
          | none => (none, { c with stats := bumpErrors (bumpHits c.stats) })
      | none => (none, { c with stats := bumpMisses c.stats })
    else (none, { c with stats := bumpErrors c.stats })

/-- Effective TTL: Python's `ttl or self.default_ttl` treats both an
absent and a zero ttl as falsy. -/
def effTtl (c : AIResponseCache) (ttl : Option Nat) : Nat :=
  match ttl with
  | none => c.default_ttl
  | some t => if t = 0 then c.default_ttl else t

/-- `AIResponseCache.set`: SETEX the exact entry under the exact key with
the effective TTL, then SETEX the similarity record under the similarity
key with twice that TTL. -/
def set (c : AIResponseCache) (prompt response model : String) (ttl : Option Nat)
    (now : ℚ) : AIResponseCache :=
  match c.redis with
  | none => c
  | some conn =>
    if conn.healthy then
      let key := get_cache_key md5hex prompt model
      let ttlv := effTtl c ttl
      let store₁ := rsetex conn.store key ttlv (jsonDumpsStr response)
      let simkey := get_similarity_key md5hex prompt model
      let store₂ := rsetex store₁ simkey (ttlv * 2) (simDumps ⟨prompt, response, now⟩)
      { c with redis := some { conn with store := store₂ }, stats := bumpSets c.stats }
    else { c with stats := bumpErrors c.stats }

structure SimResult where
  response : String
  similarity : ℚ
  prompt : String
  timestamp : ℚ
deriving DecidableEq

/-- Stable descending insertion, modelling
`similar_responses.sort(key=lambda x: x['similarity'], reverse=True)`. -/
def insertDesc (x : SimResult) : List SimResult → List SimResult
  | [] => [x]
  | y :: ys => if y.similarity < x.similarity then x :: y :: ys else y :: insertDesc x ys

def sortDesc (l : List SimResult) : List SimResult :=
  l.foldl (fun acc x => insertDesc x acc) []

/-- Lower-cased word set of a prompt, `set(p.lower().split())`. -/
def wordSet (s : String) : Finset String :=
  (splitWs (pyLower s)).toFinset

/-- `AIResponseCache.get_similar`: enumerate keys matching
`ai_similarity:*:{model}`, scan at most 100 of them, keep candidates with
Jaccard similarity at or above the threshold, sort descending, return the
top `max_results`. -/
def get_similar (c : AIResponseCache) (prompt model : String) (maxResults : Nat) :
    List SimResult × AIResponseCache :=
  match c.redis with
  | none => ([], c)
  | some conn =>
    if conn.healthy then
      let keys := rkeys conn.store ("ai_similarity:*:" ++ model)
      if keys.isEmpty then ([], c)
      else
        let promptWords := wordSet prompt
        let results := (keys.take 100).foldl (fun acc k =>
          match rfind conn.store k with
          | some (v, _) =>
            if v = "" then acc
            else
              match simLoads v with
              | some data =>
                let cachedWords := wordSet data.prompt
                let inter := (promptWords ∩ cachedWords).card
                let uni := (promptWords ∪ cachedWords).card
                let sim : ℚ := if 0 < uni then (inter : ℚ) / (uni : ℚ) else 0
                if c.similarity_threshold ≤ sim then
                  acc ++ [⟨data.response, sim, data.prompt, data.timestamp⟩]
                else acc
              | none => acc
          | none => acc) []
        ((sortDesc results).take maxResults, c)
    else ([], c)

/-- `AIResponseCache.invalidate`: delete the exact key, then the
similarity key. -/
def invalidate (c : AIResponseCache) (prompt model : String) : AIResponseCache :=
  match c.redis with
  | none => c
  | some conn =>
    if conn.healthy then
      let key := get_cache_key md5hex prompt model
      let simkey := get_similarity_key md5hex prompt model
      { c with redis := some { conn with store := rdel (rdel conn.store [key]) [simkey] } }
    else c

/-- `AIResponseCache.clear_all`: for each of the two namespace patterns,
enumerate matching keys and delete them. -/
def clear_all (c : AIResponseCache) : AIResponseCache :=
  match c.redis with
  | none => c
  | some conn =>
    if conn.healthy then
      let ks₁ := rkeys conn.store ("ai_response:*")
      let s₁ := if ks₁.isEmpty then conn.store else rdel conn.store ks₁
      let ks₂ := rkeys s₁ ("ai_similarity:*")
      let s₂ := if ks₂.isEmpty then s₁ else rdel s₁ ks₂
      { c with redis := some { conn with store := s₂ } }
    else c

end AIResponseCache

/-! ## OpenAIConnectionPool (connection_manager.py)

`make_request` is a function of the outcome of the attempted HTTP
exchange.  An attempt either completes (a response with some status whose
body was read and, for status 200, parsed), times out
(`asyncio.TimeoutError`), fails with an `aiohttp.ClientError`, or fails
with any other exception; the elapsed wall time of the attempt is part of
the outcome. -/

structure PoolStats where
  requests_made : Nat
  connection_reuses : Nat
  connection_creates : Nat
  total_response_time : ℚ
deriving DecidableEq

structure PoolState where
  sessionOpen : Bool
  stats : PoolStats
deriving DecidableEq

inductive HttpAttempt where
  | completes (status : Nat) (body : String) (hdrs : List (String × String)) (elapsed : ℚ)
  | timesOut (elapsed : ℚ)
  | failsClient (msg : String) (elapsed : ℚ)
  | failsOther (msg : String) (elapsed : ℚ)
deriving DecidableEq

structure RequestResult where
  success : Bool
  data : Option String
  error : Option String
  status_code : Nat
  response_time : ℚ
  headers : Option (List (String × String))
deriving DecidableEq

namespace OpenAIConnectionPool

/-- `OpenAIConnectionPool.get_session`: reuse the open session or create
one, counting reuses and creations. -/
def get_session (p : PoolState) : PoolState :=
  if p.sessionOpen then { p with stats := { p.stats with connection_reuses := p.stats.connection_reuses + 1 } }
  else { sessionOpen := true, stats := { p.stats with connection_creates := p.stats.connection_creates + 1 } }

/-- `OpenAIConnectionPool.make_request`: never raises; maps every attempt
outcome to a structured result, incrementing `requests_made` inside the
try block and accumulating response time only when a response arrived. -/
def make_request (att : HttpAttempt) (p : PoolState) : RequestResult × PoolState :=
  let p₁ := get_session p
  let p₂ := { p₁ with stats := { p₁.stats with requests_made := p₁.stats.requests_made + 1 } }
  match att with
  | HttpAttempt.completes st body hdrs el =>
    let p₃ := { p₂ with stats := { p₂.stats with total_response_time := p₂.stats.total_response_time + el } }
    if st = 200 then (⟨true, some body, none, st, el, some hdrs⟩, p₃)
    else (⟨false, none, some body, st, el, none⟩, p₃)
  | HttpAttempt.timesOut el => (⟨false, none, some ("Request timeout"), 408, el, none⟩, p₂)
  | HttpAttempt.failsClient m el => (⟨false, none, some m, 500, el, none⟩, p₂)
  | HttpAttempt.failsOther m el => (⟨false, none, some m, 500, el, none⟩, p₂)

end OpenAIConnectionPool

/-! ## RequestDeduplicator (deduplicator.py) -/

/-- Canonical JSON serialization of the request fingerprint,
`json.dumps({'prompt': ..., 'model': ..., 'max_tokens': ...,
'temperature': ...}, sort_keys=True)`: keys appear in sorted order
max_tokens, model, prompt, temperature.  `Temp` abstracts the Python
float type of `temperature` and `tempRepr` its (injective) JSON
rendering. -/
def dedupKeyData {Temp : Type} (tempRepr : Temp → List Char) (prompt model : String)
    (maxTokens : Nat) (temperature : Temp) : List Char :=
  ("\x7b\"max_tokens\": ").data ++
    (natChars maxTokens ++
      ((", \"model\": \"").data ++
        (escChars model.data ++
          (("\", \"prompt\": \"").data ++
            (escChars (pyNorm prompt).data ++
              (("\", \"temperature\": ").data ++
                (tempRepr temperature ++ ("\x7d").data)))))))

namespace RequestDeduplicator

/-- `RequestDeduplicator._get_request_key`: SHA-256 hex digest of the
canonical fingerprint serialization; the digest function is a
parameter. -/
def get_request_key {Temp : Type} (sha256hex : List Char → String)
    (tempRepr : Temp → List Char) (prompt model : String) (maxTokens : Nat)
    (temperature : Temp) : String :=
  sha256hex (dedupKeyData tempRepr prompt model maxTokens temperature)

/-- Outcome of the synchronous entry section of
`RequestDeduplicator.execute_or_wait` (lines 94-118): join an existing
pending entry, be rejected by the capacity guard, or become leader. -/
inductive EntryOutcome where
  | join
  | rejected
  | lead
deriving DecidableEq

/-- The entry decision of `execute_or_wait`: an already-pending key joins;
otherwise a full pending table (`len(pending) >= max_pending`) raises the
overflow error; otherwise the caller registers a new pending entry. -/
def entryDecision (pending : List String) (maxPending : Nat) (key : String) : EntryOutcome :=
  if key ∈ pending then EntryOutcome.join
  else if maxPending ≤ pending.length then EntryOutcome.rejected
  else EntryOutcome.lead

/-- Per-key bookkeeping record `request_stats[key]`. -/
structure RequestStat where
  start_time : ℚ
  prompt_preview : String
  model : String
  wait_count : Nat
deriving DecidableEq

structure DedupStats where
  pending_requests : Nat
  unique_requests : Nat
  total_duplicates_prevented : Int
  duplicate_prevention_rate : ℚ
  max_pending_reached : Bool
deriving DecidableEq

/-- `RequestDeduplicator.get_stats`: sums `wait_count` over
`request_stats` as `total_requests`, subtracts the number of entries, and
divides by `max(1, total_requests)`. -/
def get_stats (pending : List String) (requestStats : List (String × RequestStat))
    (maxPending : Nat) : DedupStats :=
  let total : Nat := (requestStats.map (fun kv => kv.2.wait_count)).sum
  let uniq : Nat := requestStats.length
  let dups : Int := (total : Int) - (uniq : Int)
  { pending_requests := pending.length
  , unique_requests := uniq
  , total_duplicates_prevented := dups
  , duplicate_prevention_rate := (dups : ℚ) / ((max 1 total : Nat) : ℚ)
  , max_pending_reached := decide (maxPending ≤ pending.length) }

end RequestDeduplicator

/-! ## Concurrency machine for `execute_or_wait`

The asyncio scheduling model: one logical thread, suspension only at
awaits.  All modelled callers carry the same canonical key, so the
pending table is a single optional entry holding the index of the task
(future) it maps to.  `wf k` is the outcome of the `k`-th execution of
the awaited work coroutine (each caller passes its own coroutine object,
so a retry runs a fresh one).  Events:

* `arrive i` — caller `i` runs the synchronous entry section of
  `execute_or_wait` (check pending / capacity guard / create task and
  register entry) up to its first await;
* `resolve k` — task `k` runs to completion, resolving its future with
  `wf k`;
* `resume i` — caller `i`, parked on an await of a resolved future,
  runs its continuation: a leader pops the entry (the `finally` block)
  and returns or re-raises; a joiner returns the value, or on failure
  pops the entry and synchronously re-executes the entry section as its
  retry (`return await self.execute_or_wait(...)`). -/

inductive FutSt (V E : Type) where
  | unres
  | resOk (v : V)
  | resErr (e : E)
deriving DecidableEq

def FutSt.ofExcept {V E : Type} : Except E V → FutSt V E
  | Except.ok v => FutSt.resOk v
  | Except.error e => FutSt.resErr e

inductive CSt (V E : Type) where
  | ready
  | waitL (k : Nat)
  | waitJ (k : Nat)
  | retOk (v : V)
  | retErr (e : E)
  | rejected
deriving DecidableEq

def CSt.isRet {V E : Type} : CSt V E → Bool
  | CSt.retOk _ => true
  | CSt.retErr _ => true
  | _ => false

structure DState (V E : Type) (N : Nat) where
  entry : Option Nat
  futures : List (FutSt V E)
  waitCount : Nat
  callers : Fin N → CSt V E

inductive DEvent (N : Nat) where
  | arrive (i : Fin N)
  | resolve (k : Nat)
  | resume (i : Fin N)
deriving DecidableEq

def DEvent.isArrive {N : Nat} : DEvent N → Bool
  | DEvent.arrive _ => true
  | _ => false

def DEvent.isResume {N : Nat} : DEvent N → Bool
  | DEvent.resume _ => true
  | _ => false

/-- Number of pending entries visible to the capacity guard
(`len(self.pending_requests)` restricted to this key). -/
def pendingSize {V E : Type} {N : Nat} (s : DState V E N) : Nat :=
  if s.entry.isSome then 1 else 0

/-- The synchronous entry section of `execute_or_wait` run by caller `i`:
join if the key is pending, raise the overflow error if the table is
full, otherwise create the task, register the entry and await it. -/
def entryBlock {V E : Type} {N : Nat} (maxPending : Nat) (s : DState V E N) (i : Fin N) :
    DState V E N :=
  match s.entry with
  | some k =>
    { s with waitCount := s.waitCount + 1
           , callers := Function.update s.callers i (CSt.waitJ k) }
  | none =>
    if maxPending ≤ pendingSize s then
      { s with callers := Function.update s.callers i CSt.rejected }
    else
      { s with entry := some s.futures.length
             , futures := s.futures ++ [FutSt.unres]
             , callers := Function.update s.callers i (CSt.waitL s.futures.length) }

def step {V E : Type} {N : Nat} (wf : Nat → Except E V) (maxPending : Nat)
    (s : DState V E N) : DEvent N → Option (DState V E N)
  | DEvent.arrive i =>
    match s.callers i with
    | CSt.ready => some (entryBlock maxPending s i)
    | _ => none
  | DEvent.resolve k =>
    match s.futures.get? k with
    | some FutSt.unres => some { s with futures := s.futures.set k (FutSt.ofExcept (wf k)) }
    | _ => none
  | DEvent.resume i =>
    match s.callers i with
    | CSt.waitL k =>
      match s.futures.get? k with
      | some (FutSt.resOk v) =>
        some { s with entry := none, callers := Function.update s.callers i (CSt.retOk v) }
      | some (FutSt.resErr e) =>
        some { s with entry := none, callers := Function.update s.callers i (CSt.retErr e) }
      | _ => none
    | CSt.waitJ k =>
      match s.futures.get? k with
      | some (FutSt.resOk v) =>
        some { s with callers := Function.update s.callers i (CSt.retOk v) }
      | some (FutSt.resErr _) =>
        some (entryBlock maxPending
          { s with entry := none, callers := Function.update s.callers i CSt.ready } i)
      | _ => none
    | _ => none

def runD {V E : Type} {N : Nat} (wf : Nat → Except E V) (maxPending : Nat) :
    DState V E N → List (DEvent N) → Option (DState V E N)
  | s, [] => some s
  | s, e :: t =>
    match step wf maxPending s e with
    | some s' => runD wf maxPending s' t
    | none => none

def initD (V E : Type) (N : Nat) : DState V E N :=
  ⟨none, [], 0, fun _ => CSt.ready⟩

def FutSt.isUnres {V E : Type} : FutSt V E → Bool
  | FutSt.unres => true
  | _ => false

/-- Unresolved futures are in-flight upstream executions. -/
def outstanding {V E : Type} {N : Nat} (s : DState V E N) : Nat :=
  (s.futures.filter (fun f => f.isUnres)).length

theorem runD_cons {V E : Type} {N : Nat} (wf : Nat → Except E V) (maxPending : Nat)
    (s : DState V E N) (e : DEvent N) (t : List (DEvent N)) :
    runD wf maxPending s (e :: t) =
      match step wf maxPending s e with
      | some s' => runD wf maxPending s' t
      | none => none := rfl

theorem runD_append {V E : Type} {N : Nat} (wf : Nat → Except E V) (maxPending : Nat)
    (t₁ : List (DEvent N)) : ∀ (s : DState V E N) (t₂ : List (DEvent N)),
    runD wf maxPending s (t₁ ++ t₂) =
      match runD wf maxPending s t₁ with
      | some s' => runD wf maxPending s' t₂
      | none => none := by
  induction t₁ with
  | nil => intro s t₂; rfl
  | cons e t ih =>
    intro s t₂
    rw [List.cons_append, runD_cons, runD_cons]
    cases hstep : step wf maxPending s e with
    | none => rfl
    | some s' => simpa using ih s' t₂

/-! ## Claim C3: capacity guard -/

/-- C3: with `max_pending = k`, a brand-new key arriving while `k`
distinct entries are pending is rejected with the overflow error, while
the k-th distinct request (arriving while `k - 1` are pending) is
accepted as a new leader. -/
theorem execute_or_wait_capacity_C3 (pending : List String) (k : Nat) (key : String)
    (hnodup : pending.Nodup) (hnew : key ∉ pending) :
    (pending.length = k →
      RequestDeduplicator.entryDecision pending k key =
        RequestDeduplicator.EntryOutcome.rejected) ∧
    (pending.length + 1 = k →
      RequestDeduplicator.entryDecision pending k key =
        RequestDeduplicator.EntryOutcome.lead) := by
  constructor
  · intro hlen
    simp [RequestDeduplicator.entryDecision, hnew, hlen]
  · intro hlen
    have hlt : ¬ (k ≤ pending.length) := by omega
    simp [RequestDeduplicator.entryDecision, hnew, hlt]

/-- Witness for C3 at a concrete table: with `max_pending = 2`, a new key
is rejected when 2 entries are pending and accepted when 1 is. -/
theorem execute_or_wait_capacity_C3_witness :
    RequestDeduplicator.entryDecision ["a", "b"] 2 ("c") =
      RequestDeduplicator.EntryOutcome.rejected ∧
    RequestDeduplicator.entryDecision ["a"] 2 ("c") =
      RequestDeduplicator.EntryOutcome.lead :=
  ⟨(execute_or_wait_capacity_C3 ["a", "b"] 2 ("c") (by decide) (by decide)).1 rfl,
   (execute_or_wait_capacity_C3 ["a"] 2 ("c") (by decide) (by decide)).2 rfl⟩

/-! ## Claim C9: deduplicator statistics

Definitions below follow the claim's words, for comparison with
`RequestDeduplicator.get_stats`: a joiner is a call that incremented a
`wait_count`; every served call either created a distinct entry or
joined one. -/

def joinersServed (requestStats : List (String × RequestDeduplicator.RequestStat)) : Nat :=
  (requestStats.map (fun kv => kv.2.wait_count)).sum

def totalRequestsServed (requestStats : List (String × RequestDeduplicator.RequestStat)) : Nat :=
  requestStats.length + joinersServed requestStats

def claimedPreventionRate (requestStats : List (String × RequestDeduplicator.RequestStat)) : ℚ :=
  (joinersServed requestStats : ℚ) / (totalRequestsServed requestStats : ℚ)

/-- C9: the code sums only `wait_count` (joiners) as `total_requests`, so
for a single leader with no joiners `get_stats` reports
`total_duplicates_prevented = -1` and a duplicate-prevention rate of
`-1`, where the claim's reading (joiners served, joiners / total
requests) gives `0` and `0`. -/
theorem get_stats_C9 :
    RequestDeduplicator.get_stats ["k"] [(("k" : String), ⟨0, "p", "m", 0⟩)] 100 =
      ⟨1, 1, -1, -1, false⟩ ∧
    joinersServed [(("k" : String), ⟨0, "p", "m", 0⟩)] = 0 ∧
    claimedPreventionRate [(("k" : String), ⟨0, "p", "m", 0⟩)] = 0 ∧
    ((-1 : Int) ≠ (0 : Int)) ∧ ((-1 : ℚ) ≠ (0 : ℚ)) := by
  refine ⟨?_, rfl, ?_, by decide, by decide⟩
  · show RequestDeduplicator.DedupStats.mk 1 1 ((0 : Int) - 1) (((0 : Int) - 1 : Int) / _) _ = _
    norm_num [RequestDeduplicator.get_stats]
  · show ((0 : ℚ) / _ = 0)
    norm_num [claimedPreventionRate]

/-! ## Claim C4: structured results from the connection pool -/

/-- C4 (amended): `make_request` is total (never raises) and always
returns a structured result with success flag, payload or error, status
code and elapsed time.  A timeout maps to `success = false`, status 408,
with the fixed tag `Request timeout`; a transport/client error and any
other unexpected failure both map to `success = false`, status 500, with
the exception message as the error field (the latter two classes are not
distinguishable from each other when their messages coincide); a non-200
response maps to `success = false` with the upstream status and body. -/
theorem make_request_C4 (p : PoolState) :
    (∀ el : ℚ, (OpenAIConnectionPool.make_request (HttpAttempt.timesOut el) p).1 =
      ⟨false, none, some ("Request timeout"), 408, el, none⟩) ∧
    (∀ (m : String) (el : ℚ),
      (OpenAIConnectionPool.make_request (HttpAttempt.failsClient m el) p).1 =
        ⟨false, none, some m, 500, el, none⟩) ∧
    (∀ (m : String) (el : ℚ),
      (OpenAIConnectionPool.make_request (HttpAttempt.failsOther m el) p).1 =
        ⟨false, none, some m, 500, el, none⟩) ∧
    (∀ (st : Nat) (body : String) (hdrs : List (String × String)) (el : ℚ), st ≠ 200 →
      (OpenAIConnectionPool.make_request (HttpAttempt.completes st body hdrs el) p).1 =
        ⟨false, none, some body, st, el, none⟩) ∧
    (∀ att : HttpAttempt,
      ((OpenAIConnectionPool.make_request att p).1.success = true →
        ((OpenAIConnectionPool.make_request att p).1.data).isSome = true) ∧
      ((OpenAIConnectionPool.make_request att p).1.success = false →
        ((OpenAIConnectionPool.make_request att p).1.error).isSome = true)) := by
  refine ⟨fun el => rfl, fun m el => rfl, fun m el => rfl, ?_, ?_⟩
  · intro st body hdrs el hst
    simp [OpenAIConnectionPool.make_request, hst]
  · intro att
    cases att with
    | completes st body hdrs el =>
      by_cases hst : st = 200 <;>
        simp [OpenAIConnectionPool.make_request, hst]
    | timesOut el => simp [OpenAIConnectionPool.make_request]
    | failsClient m el => simp [OpenAIConnectionPool.make_request]
    | failsOther m el => simp [OpenAIConnectionPool.make_request]

/-- Witness for C4 at a concrete pool state and concrete attempts. -/
theorem make_request_C4_witness :
    (OpenAIConnectionPool.make_request (HttpAttempt.timesOut 1) ⟨false, ⟨0, 0, 0, 0⟩⟩).1 =
      ⟨false, none, some ("Request timeout"), 408, 1, none⟩ ∧
    (OpenAIConnectionPool.make_request (HttpAttempt.failsClient ("x") 2)
        ⟨false, ⟨0, 0, 0, 0⟩⟩).1 = ⟨false, none, some ("x"), 500, 2, none⟩ ∧
    (OpenAIConnectionPool.make_request (HttpAttempt.completes 503 ("overloaded") [] 3)
        ⟨false, ⟨0, 0, 0, 0⟩⟩).1 = ⟨false, none, some ("overloaded"), 503, 3, none⟩ :=
  ⟨(make_request_C4 ⟨false, ⟨0, 0, 0, 0⟩⟩).1 1,
   (make_request_C4 ⟨false, ⟨0, 0, 0, 0⟩⟩).2.1 ("x") 2,
   (make_request_C4 ⟨false, ⟨0, 0, 0, 0⟩⟩).2.2.2.1 503 ("overloaded") [] 3 (by decide)⟩

/-- C4 counterexample: a transport/client error and an unexpected failure
with the same message yield literally identical results and pool state,
so the two failure classes are not tagged distinctly in the error
field. -/
theorem make_request_C4_counterexample :
    OpenAIConnectionPool.make_request (HttpAttempt.failsClient ("boom") 1)
        ⟨false, ⟨0, 0, 0, 0⟩⟩ =
      OpenAIConnectionPool.make_request (HttpAttempt.failsOther ("boom") 1)
        ⟨false, ⟨0, 0, 0, 0⟩⟩ ∧
    HttpAttempt.failsClient ("boom") 1 ≠ HttpAttempt.failsOther ("boom") 1 := by
  exact ⟨rfl, by decide⟩

/-! ## Association-list store lemmas -/

theorem rfind_rsetex_same (st : RedisStore) (k : String) (ttl : Nat) (v : String) :
    rfind (rsetex st k ttl v) k = some (v, ttl) := by
  unfold rfind rsetex
  induction st with
  | nil => simp
  | cons kv rest ih =>
    by_cases hk : kv.1 = k
    · simpa [List.filter, hk] using ih
    · simpa [List.filter, hk] using ih

theorem rfind_rsetex_other (st : RedisStore) (k' : String) (ttl : Nat) (v : String)
    (k : String) (h : k ≠ k') : rfind (rsetex st k' ttl v) k = rfind st k := by
  unfold rfind rsetex
  induction st with
  | nil =>
    simp only [List.filter_nil, List.nil_append]
    rw [List.find?_cons_of_neg _ (by simpa using (show ¬ (k' = k) from fun hh => h hh.symm))]
  | cons kv rest ih =>
    by_cases hk : kv.1 = k'
    · rw [List.filter_cons, if_neg (by simp [hk])]
      have hkk : ¬ (kv.1 = k) := by rw [hk]; exact fun hh => h hh.symm
      rw [List.find?_cons_of_neg _ (by simpa using hkk)]
      exact ih
    · rw [List.filter_cons, if_pos (by simpa using hk), List.cons_append]
      by_cases hkk : kv.1 = k
      · rw [List.find?_cons_of_pos _ (by simpa using hkk),
          List.find?_cons_of_pos _ (by simpa using hkk)]
      · rw [List.find?_cons_of_neg _ (by simpa using hkk),
          List.find?_cons_of_neg _ (by simpa using hkk)]
        exact ih

theorem string_data_append (s t : String) : (s ++ t).data = s.data ++ t.data := rfl

/-- The two cache namespaces are disjoint whatever the digests are. -/
theorem resp_key_ne_sim_key (a b : String) :
    ("ai_response:" ++ a) ≠ ("ai_similarity:" ++ b) := by
  intro h
  have h2 := congrArg String.data h
  rw [string_data_append, string_data_append] at h2
  simp at h2

/-! ## Claim C6: set writes exact entry and similarity record -/

/-- C6 (amended): `set` writes the serialized response under the
exact-match key with the effective TTL and the similarity record
`{prompt, response, timestamp}` under the similarity key with exactly
twice that TTL (so for a positive TTL the similarity record outlives the
exact entry).  The effective TTL is the given ttl, except that an absent
ttl — or, through Python's `ttl or self.default_ttl`, a ttl of 0 — falls
back to the configured default. -/
theorem cache_set_C6 (md5hex : String → String) (c : AIResponseCache) (conn : RedisConn)
    (prompt response model : String) (ttl : Option Nat) (now : ℚ)
    (hredis : c.redis = some conn) (hh : conn.healthy = true) :
    ∃ conn' : RedisConn,
      (AIResponseCache.set md5hex c prompt response model ttl now).redis = some conn' ∧
      rfind conn'.store (AIResponseCache.get_cache_key md5hex prompt model) =
        some (jsonDumpsStr response, AIResponseCache.effTtl c ttl) ∧
      rfind conn'.store (AIResponseCache.get_similarity_key md5hex prompt model) =
        some (simDumps ⟨prompt, response, now⟩, AIResponseCache.effTtl c ttl * 2) ∧
      ((ttl = none ∨ ttl = some 0) → AIResponseCache.effTtl c ttl = c.default_ttl) ∧
      (∀ t : Nat, ttl = some t → t ≠ 0 → AIResponseCache.effTtl c ttl = t) ∧
      (0 < c.default_ttl →
        AIResponseCache.effTtl c ttl < AIResponseCache.effTtl c ttl * 2) := by
  refine ⟨⟨rsetex
      (rsetex conn.store (AIResponseCache.get_cache_key md5hex prompt model)
        (AIResponseCache.effTtl c ttl) (jsonDumpsStr response))
      (AIResponseCache.get_similarity_key md5hex prompt model)
      (AIResponseCache.effTtl c ttl * 2) (simDumps ⟨prompt, response, now⟩),
    conn.healthy⟩, ?_, ?_, ?_, ?_, ?_, ?_⟩
  · simp [AIResponseCache.set, hredis, hh]
  · have hne : AIResponseCache.get_cache_key md5hex prompt model ≠
        AIResponseCache.get_similarity_key md5hex prompt model := by
      unfold AIResponseCache.get_cache_key AIResponseCache.get_similarity_key
      exact resp_key_ne_sim_key _ _
    have h1 := rfind_rsetex_other
      (rsetex conn.store (AIResponseCache.get_cache_key md5hex prompt model)
        (AIResponseCache.effTtl c ttl) (jsonDumpsStr response))
      (AIResponseCache.get_similarity_key md5hex prompt model)
      (AIResponseCache.effTtl c ttl * 2) (simDumps ⟨prompt, response, now⟩)
      (AIResponseCache.get_cache_key md5hex prompt model) hne
    exact h1.trans (rfind_rsetex_same _ _ _ _)
  · exact rfind_rsetex_same _ _ _ _
  · rintro (h | h) <;> simp [AIResponseCache.effTtl, h]
  · intro t ht hne
    simp [AIResponseCache.effTtl, ht, hne]
  · intro hpos
    have : 0 < AIResponseCache.effTtl c ttl := by
      unfold AIResponseCache.effTtl
      match ttl with
      | none => exact hpos
      | some t =>
        by_cases h0 : t = 0
        · simpa [h0] using hpos
        · simpa [h0] using Nat.pos_of_ne_zero h0
    omega

/-- Witness for C6 at a concrete cache and inputs (identity digest). -/
theorem cache_set_C6_witness :
    ∃ conn' : RedisConn,
      (AIResponseCache.set (fun s => s) ⟨some ⟨[], true⟩, 3600, 17 / 20, ⟨0, 0, 0, 0⟩⟩
          ("hi") ("resp") ("m") (some 60) 5).redis = some conn' ∧
      rfind conn'.store (AIResponseCache.get_cache_key (fun s => s) ("hi") ("m")) =
        some (jsonDumpsStr ("resp"),
          AIResponseCache.effTtl ⟨some ⟨[], true⟩, 3600, 17 / 20, ⟨0, 0, 0, 0⟩⟩ (some 60)) ∧
      rfind conn'.store (AIResponseCache.get_similarity_key (fun s => s) ("hi") ("m")) =
        some (simDumps ⟨"hi", "resp", 5⟩,
          AIResponseCache.effTtl ⟨some ⟨[], true⟩, 3600, 17 / 20, ⟨0, 0, 0, 0⟩⟩ (some 60) * 2) ∧
      ((some 60 = (none : Option Nat) ∨ some 60 = some 0) →
        AIResponseCache.effTtl ⟨some ⟨[], true⟩, 3600, 17 / 20, ⟨0, 0, 0, 0⟩⟩ (some 60) = 3600) ∧
      (∀ t : Nat, some 60 = some t → t ≠ 0 →
        AIResponseCache.effTtl ⟨some ⟨[], true⟩, 3600, 17 / 20, ⟨0, 0, 0, 0⟩⟩ (some 60) = t) ∧
      ((0 : Nat) < 3600 →
        AIResponseCache.effTtl ⟨some ⟨[], true⟩, 3600, 17 / 20, ⟨0, 0, 0, 0⟩⟩ (some 60) <
          AIResponseCache.effTtl ⟨some ⟨[], true⟩, 3600, 17 / 20, ⟨0, 0, 0, 0⟩⟩ (some 60) * 2) :=
  cache_set_C6 (fun s => s) ⟨some ⟨[], true⟩, 3600, 17 / 20, ⟨0, 0, 0, 0⟩⟩ ⟨[], true⟩
    ("hi") ("resp") ("m") (some 60) 5 rfl rfl

/-- C6 counterexample: with an explicit `ttl = 0` the exact entry is
written with the default TTL 3600, not with expiry 0 as the claim's
unconditional reading requires. -/
theorem cache_set_C6_counterexample :
    ∃ conn' : RedisConn,
      (AIResponseCache.set (fun s => s) ⟨some ⟨[], true⟩, 3600, 17 / 20, ⟨0, 0, 0, 0⟩⟩
          ("p") ("r") ("m") (some 0) 0).redis = some conn' ∧
      (rfind conn'.store (AIResponseCache.get_cache_key (fun s => s) ("p") ("m"))).map
          (fun vt => vt.2) = some 3600 ∧
      (3600 : Nat) ≠ 0 := by
  refine ⟨_, rfl, ?_, by decide⟩
  decide

/-! ## Claim C7: unreachable backing store degrades to no-ops -/

/-- C7: when the store handle is absent or every store command raises,
`get` returns absent, `get_similar` returns the empty list (and leaves
the cache untouched), and `set`, `invalidate` and `clear_all` leave the
store untouched; nothing is propagated as an error (all operations are
total and return their benign defaults; only client-side counters may
record the error). -/
theorem cache_unreachable_C7 (md5hex : String → String) (c : AIResponseCache)
    (hu : c.redis = none ∨ ∃ conn : RedisConn, c.redis = some conn ∧ conn.healthy = false) :
    (∀ prompt model : String, (AIResponseCache.get md5hex c prompt model).1 = none ∧
      ((AIResponseCache.get md5hex c prompt model).2).redis = c.redis) ∧
    (∀ (prompt model : String) (k : Nat),
      AIResponseCache.get_similar c prompt model k = ([], c)) ∧
    (∀ (prompt response model : String) (ttl : Option Nat) (now : ℚ),
      (AIResponseCache.set md5hex c prompt response model ttl now).redis = c.redis) ∧
    (∀ prompt model : String, AIResponseCache.invalidate md5hex c prompt model = c) ∧
    AIResponseCache.clear_all c = c := by
  rcases hu with hr | ⟨conn, hr, hh⟩
  · exact ⟨fun prompt model => by simp [AIResponseCache.get, hr],
      fun prompt model k => by simp [AIResponseCache.get_similar, hr],
      fun prompt response model ttl now => by simp [AIResponseCache.set, hr],
      fun prompt model => by simp [AIResponseCache.invalidate, hr],
      by simp [AIResponseCache.clear_all, hr]⟩
  · exact ⟨fun prompt model => by simp [AIResponseCache.get, hr, hh],
      fun prompt model k => by simp [AIResponseCache.get_similar, hr, hh],
      fun prompt response model ttl now => by simp [AIResponseCache.set, hr, hh],
      fun prompt model => by simp [AIResponseCache.invalidate, hr, hh],
      by simp [AIResponseCache.clear_all, hr, hh]⟩

/-- Witness for C7 on a cache whose store handle is absent. -/
theorem cache_unreachable_C7_witness :
    (AIResponseCache.get (fun s => s) ⟨none, 3600, 17 / 20, ⟨0, 0, 0, 0⟩⟩ ("p") ("m")).1 =
      none ∧
    AIResponseCache.get_similar ⟨none, 3600, 17 / 20, ⟨0, 0, 0, 0⟩⟩ ("p") ("m") 3 =
      ([], ⟨none, 3600, 17 / 20, ⟨0, 0, 0, 0⟩⟩) ∧
    (AIResponseCache.set (fun s => s) ⟨none, 3600, 17 / 20, ⟨0, 0, 0, 0⟩⟩ ("p") ("r") ("m")
        none 0).redis = none ∧
    AIResponseCache.invalidate (fun s => s) ⟨none, 3600, 17 / 20, ⟨0, 0, 0, 0⟩⟩ ("p") ("m") =
      ⟨none, 3600, 17 / 20, ⟨0, 0, 0, 0⟩⟩ ∧
    AIResponseCache.clear_all ⟨none, 3600, 17 / 20, ⟨0, 0, 0, 0⟩⟩ =
      ⟨none, 3600, 17 / 20, ⟨0, 0, 0, 0⟩⟩ := by
  have h := cache_unreachable_C7 (fun s => s) ⟨none, 3600, 17 / 20, ⟨0, 0, 0, 0⟩⟩ (Or.inl rfl)
  exact ⟨(h.1 ("p") ("m")).1, h.2.1 ("p") ("m") 3, h.2.2.1 ("p") ("r") ("m") none 0,
    h.2.2.2.1 ("p") ("m"), h.2.2.2.2⟩

/-! ## Claim C10: frame effect of cache get -/

/-- C10 (amended): `get` never modifies the backing store (the redis
handle, hence every entry and expiry, is preserved) and never changes the
configuration fields; its only client-side mutation is to the counters,
and the change is one of: nothing (store handle absent), errors+1 (store
call raised), misses+1, hits+1, or hits+1 together with errors+1 (a
cached value that fails to parse is counted as a hit and then as an
error). -/
theorem cache_get_frame_C10 (md5hex : String → String) (c : AIResponseCache)
    (prompt model : String) :
    ((AIResponseCache.get md5hex c prompt model).2).redis = c.redis ∧
    ((AIResponseCache.get md5hex c prompt model).2).default_ttl = c.default_ttl ∧
    ((AIResponseCache.get md5hex c prompt model).2).similarity_threshold =
      c.similarity_threshold ∧
    (((AIResponseCache.get md5hex c prompt model).2).stats = c.stats ∨
     ((AIResponseCache.get md5hex c prompt model).2).stats = bumpErrors c.stats ∨
     ((AIResponseCache.get md5hex c prompt model).2).stats = bumpMisses c.stats ∨
     ((AIResponseCache.get md5hex c prompt model).2).stats = bumpHits c.stats ∨
     ((AIResponseCache.get md5hex c prompt model).2).stats =
       bumpErrors (bumpHits c.stats)) := by
  match hr : c.redis with
  | none =>
    refine ⟨?_, ?_, ?_, Or.inl ?_⟩ <;> simp [AIResponseCache.get, hr]
  | some conn =>
    by_cases hh : conn.healthy
    · match hf : rfind conn.store (AIResponseCache.get_cache_key md5hex prompt model) with
      | none =>
        refine ⟨?_, ?_, ?_, Or.inr (Or.inr (Or.inl ?_))⟩ <;>
          simp [AIResponseCache.get, hr, hh, hf]
      | some vt =>
        by_cases hv : vt.1 = ""
        · refine ⟨?_, ?_, ?_, Or.inr (Or.inr (Or.inl ?_))⟩ <;>
            simp [AIResponseCache.get, hr, hh, hf, hv]
        · match hj : jsonLoadsStr vt.1 with
          | some x =>
            refine ⟨?_, ?_, ?_, Or.inr (Or.inr (Or.inr (Or.inl ?_)))⟩ <;>
              simp [AIResponseCache.get, hr, hh, hf, hv, hj]
          | none =>
            refine ⟨?_, ?_, ?_, Or.inr (Or.inr (Or.inr (Or.inr ?_)))⟩ <;>
              simp [AIResponseCache.get, hr, hh, hf, hv, hj]
    · refine ⟨?_, ?_, ?_, Or.inr (Or.inl ?_)⟩ <;> simp [AIResponseCache.get, hr, hh]

/-- C10 counterexample: with a healthy store holding a malformed value
under the exact key, one `get` call increments both the hit counter and
the error counter, so it is not the case that exactly one counter moves
per call. -/
theorem cache_get_frame_C10_counterexample :
    ((AIResponseCache.get (fun s => s)
        ⟨some ⟨[(AIResponseCache.get_cache_key (fun s => s) ("p") ("m"), "x", 60)], true⟩,
          3600, 17 / 20, ⟨0, 0, 0, 0⟩⟩ ("p") ("m")).2).stats = ⟨1, 0, 0, 1⟩ ∧
    ¬ ((⟨1, 0, 0, 1⟩ : CacheStats) = bumpHits ⟨0, 0, 0, 0⟩ ∨
       (⟨1, 0, 0, 1⟩ : CacheStats) = bumpMisses ⟨0, 0, 0, 0⟩ ∨
       (⟨1, 0, 0, 1⟩ : CacheStats) = bumpErrors ⟨0, 0, 0, 0⟩) := by
  constructor
  · decide
  · decide

/-! ## Claim C2: the similarity scan -/

/-- Shape of every key `AIResponseCache.set` ever writes: a fixed
namespace prefix followed by a hex digest, which contains no colon. -/
def writtenKey (k : String) : Prop :=
  (∃ d : String, k = "ai_response:" ++ d ∧ ∀ c ∈ d.data, c ≠ ':') ∨
  (∃ d : String, k = "ai_similarity:" ++ d ∧ ∀ c ∈ d.data, c ≠ ':')

theorem sim_pattern_no_match_sim (model d : String) (hd : ∀ c ∈ d.data, c ≠ ':') :
    globMatch ("ai_similarity:*:" ++ model).data ("ai_similarity:" ++ d).data = false := by
  have e₁ : ("ai_similarity:*:" ++ model).data =
      ("ai_similarity:").data ++ ('*' :: ':' :: model.data) := rfl
  have e₂ : ("ai_similarity:" ++ d).data = ("ai_similarity:").data ++ d.data := rfl
  rw [e₁, e₂, globMatch_consume_lit (("ai_similarity:").data) (by decide)]
  exact globMatch_star_colon model.data d.data hd

theorem sim_pattern_no_match_resp (model d : String) :
    globMatch ("ai_similarity:*:" ++ model).data ("ai_response:" ++ d).data = false := by
  have e₁ : ("ai_similarity:*:" ++ model).data =
      ("ai_").data ++ ('s' :: (("imilarity:*:").data ++ model.data)) := rfl
  have e₂ : ("ai_response:" ++ d).data =
      ("ai_").data ++ ('r' :: (("esponse:").data ++ d.data)) := rfl
  rw [e₁, e₂, globMatch_consume_lit (("ai_").data) (by decide),
    globMatch_cons_cons 's' _ 'r' _ (by decide)]
  simp

theorem rkeys_sim_pattern_empty (store : RedisStore) (model : String)
    (hst : ∀ kv ∈ store, writtenKey kv.1) :
    rkeys store ("ai_similarity:*:" ++ model) = [] := by
  unfold rkeys
  rw [List.filter_eq_nil]
  intro a ha
  obtain ⟨kv, hkv, rfl⟩ := List.mem_map.1 ha
  rcases hst kv hkv with ⟨d, hk, hd⟩ | ⟨d, hk, hd⟩
  · rw [hk, sim_pattern_no_match_resp model d]
    simp
  · rw [hk, sim_pattern_no_match_sim model d hd]
    simp

/-- C2: `get_similar` enumerates keys with the glob
`ai_similarity:*:{model}`, but `set` stores similarity records under
`ai_similarity:<hexdigest>`; since a hex digest contains no colon, the
glob (which demands a colon before the model name) matches no stored key,
so `get_similar` returns the empty list on every store populated through
`set` — in particular a stored prompt with word set identical to the
query's is never returned, contradicting the claimed Jaccard scan. -/
theorem get_similar_C2 (c : AIResponseCache) (conn : RedisConn) (prompt model : String)
    (k : Nat) (hr : c.redis = some conn)
    (hst : ∀ kv ∈ conn.store, writtenKey kv.1) :
    AIResponseCache.get_similar c prompt model k = ([], c) := by
  by_cases hh : conn.healthy <;>
    simp [AIResponseCache.get_similar, hr, hh, rkeys_sim_pattern_empty conn.store model hst]

/-- Witness for C2 at the claim's own scenario: after `set` caches the
prompt `hello world`, `get_similar` with the identical prompt and the
same model returns the empty list (identity-shaped digest `d4d4`). -/
theorem get_similar_C2_witness :
    AIResponseCache.get_similar
        (AIResponseCache.set (fun _ => "d4d4") ⟨some ⟨[], true⟩, 3600, 17 / 20, ⟨0, 0, 0, 0⟩⟩
          ("hello world") ("resp") ("gpt-3.5-turbo") none 0)
        ("hello world") ("gpt-3.5-turbo") 3 =
      ([], AIResponseCache.set (fun _ => "d4d4") ⟨some ⟨[], true⟩, 3600, 17 / 20, ⟨0, 0, 0, 0⟩⟩
        ("hello world") ("resp") ("gpt-3.5-turbo") none 0) := by
  apply get_similar_C2 _
    ⟨[(AIResponseCache.get_cache_key (fun _ => "d4d4") ("hello world") ("gpt-3.5-turbo"),
        jsonDumpsStr ("resp"), 3600),
      (AIResponseCache.get_similarity_key (fun _ => "d4d4") ("hello world") ("gpt-3.5-turbo"),
        simDumps ⟨"hello world", "resp", 0⟩, 7200)], true⟩
    ("hello world") ("gpt-3.5-turbo") 3 rfl
  intro kv hkv
  rcases List.mem_cons.1 hkv with h | h
  · left
    exact ⟨"d4d4", by rw [h]; rfl, by decide⟩
  · rcases List.mem_cons.1 h with h2 | h2
    · right
      exact ⟨"d4d4", by rw [h2]; rfl, by decide⟩
    · exact absurd h2 (List.not_mem_nil kv)

/-! ## Claim C8: fingerprint determinism -/

theorem string_data_injective : Function.Injective String.data := by
  intro s t h
  cases s
  cases t
  exact congrArg String.mk h

theorem string_append_left_cancel {A s t : String} (h : A ++ s = A ++ t) : s = t := by
  have h2 := congrArg String.data h
  rw [string_data_append, string_data_append] at h2
  exact string_data_injective (List.append_cancel_left h2)

theorem string_append_right_cancel {s t B : String} (h : s ++ B = t ++ B) : s = t := by
  have h2 := congrArg String.data h
  rw [string_data_append, string_data_append] at h2
  exact string_data_injective (List.append_cancel_right h2)

/-- A generation request as the deduplicator and cache see it: prompt,
model and the two generation parameters included in the fingerprint.
`Temp` abstracts the Python float type of temperature. -/
structure GenRequest (Temp : Type) where
  prompt : String
  model : String
  max_tokens : Nat
  temperature : Temp

def requestDedupKey {Temp : Type} (sha256hex : List Char → String)
    (tempRepr : Temp → List Char) (r : GenRequest Temp) : String :=
  RequestDeduplicator.get_request_key sha256hex tempRepr r.prompt r.model r.max_tokens
    r.temperature

def requestCacheKey {Temp : Type} (md5hex : String → String) (r : GenRequest Temp) : String :=
  AIResponseCache.get_cache_key md5hex r.prompt r.model

def requestSimKey {Temp : Type} (md5hex : String → String) (r : GenRequest Temp) : String :=
  AIResponseCache.get_similarity_key md5hex r.prompt r.model

/-- Changing exactly one fingerprint field changes the serialized key
data. -/
theorem dedupKeyData_field_eq {Temp : Type} (tempRepr : Temp → List Char)
    (p₁ p₂ m₁ m₂ : String) (mt₁ mt₂ : Nat) (t₁ t₂ : Temp)
    (h : dedupKeyData tempRepr p₁ m₁ mt₁ t₁ = dedupKeyData tempRepr p₂ m₂ mt₂ t₂) :
    (m₁ = m₂ → pyNorm p₁ = pyNorm p₂ → t₁ = t₂ → mt₁ = mt₂) ∧
    (mt₁ = mt₂ → pyNorm p₁ = pyNorm p₂ → t₁ = t₂ → m₁ = m₂) ∧
    (mt₁ = mt₂ → m₁ = m₂ → t₁ = t₂ → pyNorm p₁ = pyNorm p₂) ∧
    (mt₁ = mt₂ → m₁ = m₂ → pyNorm p₁ = pyNorm p₂ → tempRepr t₁ = tempRepr t₂) := by
  unfold dedupKeyData at h
  refine ⟨?_, ?_, ?_, ?_⟩
  · intro hm hp ht
    rw [hm, hp, ht] at h
    exact natChars_injective
      (List.append_cancel_right (List.append_cancel_left h))
  · intro hmt hp ht
    rw [hmt, hp, ht] at h
    have h1 := List.append_cancel_left (List.append_cancel_left (List.append_cancel_left h))
    exact string_data_injective (escChars_injective (List.append_cancel_right h1))
  · intro hmt hm ht
    rw [hmt, hm, ht] at h
    have h1 := List.append_cancel_left (List.append_cancel_left (List.append_cancel_left
      (List.append_cancel_left (List.append_cancel_left h))))
    exact string_data_injective (escChars_injective (List.append_cancel_right h1))
  · intro hmt hm hp
    rw [hmt, hm, hp] at h
    have h1 := List.append_cancel_left (List.append_cancel_left (List.append_cancel_left
      (List.append_cancel_left (List.append_cancel_left
        (List.append_cancel_left (List.append_cancel_left h))))))
    exact List.append_cancel_right h1

/-- Changing the normalized prompt or the model changes the cache key
content `normalized_prompt:model`, provided the other field is fixed. -/
theorem cacheContent_field_eq (p₁ p₂ m₁ m₂ : String)
    (h : pyNorm p₁ ++ (":" ++ m₁) = pyNorm p₂ ++ (":" ++ m₂)) :
    (m₁ = m₂ → pyNorm p₁ = pyNorm p₂) ∧ (pyNorm p₁ = pyNorm p₂ → m₁ = m₂) := by
  constructor
  · intro hm
    rw [hm] at h
    exact string_append_right_cancel h
  · intro hp
    rw [hp] at h
    exact string_append_left_cancel (string_append_left_cancel h)

/-- C8 (amended): with collision-free digests and an injective
temperature rendering, requests equal in normalized prompt, model,
max_tokens and temperature produce identical deduplicator and cache
keys; any single differing field changes the deduplicator's key; a
differing normalized prompt or model changes both cache keys; the cache
keys do not depend on max_tokens or temperature at all. -/
theorem fingerprint_C8 {Temp : Type} (sha256hex : List Char → String)
    (tempRepr : Temp → List Char) (md5hex : String → String)
    (hsha : Function.Injective sha256hex) (htemp : Function.Injective tempRepr)
    (hmd5 : Function.Injective md5hex) :
    (∀ r₁ r₂ : GenRequest Temp, pyNorm r₁.prompt = pyNorm r₂.prompt →
      r₁.model = r₂.model → r₁.max_tokens = r₂.max_tokens →
      r₁.temperature = r₂.temperature →
      requestDedupKey sha256hex tempRepr r₁ = requestDedupKey sha256hex tempRepr r₂ ∧
      requestCacheKey md5hex r₁ = requestCacheKey md5hex r₂ ∧
      requestSimKey md5hex r₁ = requestSimKey md5hex r₂) ∧
    (∀ r₁ r₂ : GenRequest Temp, r₁.model = r₂.model → r₁.max_tokens = r₂.max_tokens →
      r₁.temperature = r₂.temperature → pyNorm r₁.prompt ≠ pyNorm r₂.prompt →
      requestDedupKey sha256hex tempRepr r₁ ≠ requestDedupKey sha256hex tempRepr r₂) ∧
    (∀ r₁ r₂ : GenRequest Temp, pyNorm r₁.prompt = pyNorm r₂.prompt →
      r₁.max_tokens = r₂.max_tokens → r₁.temperature = r₂.temperature →
      r₁.model ≠ r₂.model →
      requestDedupKey sha256hex tempRepr r₁ ≠ requestDedupKey sha256hex tempRepr r₂) ∧
    (∀ r₁ r₂ : GenRequest Temp, pyNorm r₁.prompt = pyNorm r₂.prompt →
      r₁.model = r₂.model → r₁.temperature = r₂.temperature →
      r₁.max_tokens ≠ r₂.max_tokens →
      requestDedupKey sha256hex tempRepr r₁ ≠ requestDedupKey sha256hex tempRepr r₂) ∧
    (∀ r₁ r₂ : GenRequest Temp, pyNorm r₁.prompt = pyNorm r₂.prompt →
      r₁.model = r₂.model → r₁.max_tokens = r₂.max_tokens →
      r₁.temperature ≠ r₂.temperature →
      requestDedupKey sha256hex tempRepr r₁ ≠ requestDedupKey sha256hex tempRepr r₂) ∧
    (∀ r₁ r₂ : GenRequest Temp, r₁.model = r₂.model →
      pyNorm r₁.prompt ≠ pyNorm r₂.prompt →
      requestCacheKey md5hex r₁ ≠ requestCacheKey md5hex r₂ ∧
      requestSimKey md5hex r₁ ≠ requestSimKey md5hex r₂) ∧
    (∀ r₁ r₂ : GenRequest Temp, pyNorm r₁.prompt = pyNorm r₂.prompt →
      r₁.model ≠ r₂.model →
      requestCacheKey md5hex r₁ ≠ requestCacheKey md5hex r₂ ∧
      requestSimKey md5hex r₁ ≠ requestSimKey md5hex r₂) ∧
    (∀ (r : GenRequest Temp) (mt : Nat) (t : Temp),
      requestCacheKey md5hex ⟨r.prompt, r.model, mt, t⟩ = requestCacheKey md5hex r ∧
      requestSimKey md5hex ⟨r.prompt, r.model, mt, t⟩ = requestSimKey md5hex r) := by
  have contentOf : ∀ r₁ r₂ : GenRequest Temp,
      requestCacheKey md5hex r₁ = requestCacheKey md5hex r₂ →
      pyNorm r₁.prompt ++ (":" ++ r₁.model) = pyNorm r₂.prompt ++ (":" ++ r₂.model) := by
    intro r₁ r₂ hk
    exact hmd5 (string_append_left_cancel hk)
  have simContentOf : ∀ r₁ r₂ : GenRequest Temp,
      requestSimKey md5hex r₁ = requestSimKey md5hex r₂ →
      pyNorm r₁.prompt ++ (":" ++ r₁.model) = pyNorm r₂.prompt ++ (":" ++ r₂.model) := by
    intro r₁ r₂ hk
    exact string_append_left_cancel (hmd5 (string_append_left_cancel hk))
  have dedupDataOf : ∀ r₁ r₂ : GenRequest Temp,
      requestDedupKey sha256hex tempRepr r₁ = requestDedupKey sha256hex tempRepr r₂ →
      dedupKeyData tempRepr r₁.prompt r₁.model r₁.max_tokens r₁.temperature =
        dedupKeyData tempRepr r₂.prompt r₂.model r₂.max_tokens r₂.temperature := by
    intro r₁ r₂ hk
    exact hsha hk
  refine ⟨?_, ?_, ?_, ?_, ?_, ?_, ?_, ?_⟩
  · intro r₁ r₂ hp hm hmt ht
    refine ⟨?_, ?_, ?_⟩
    · unfold requestDedupKey RequestDeduplicator.get_request_key dedupKeyData
      rw [hp, hm, hmt, ht]
    · unfold requestCacheKey AIResponseCache.get_cache_key
      rw [hp, hm]
    · unfold requestSimKey AIResponseCache.get_similarity_key
      rw [hp, hm]
  · intro r₁ r₂ hm hmt ht hne hk
    exact hne ((dedupKeyData_field_eq tempRepr _ _ _ _ _ _ _ _
      (dedupDataOf r₁ r₂ hk)).2.2.1 hmt hm ht)
  · intro r₁ r₂ hp hmt ht hne hk
    exact hne ((dedupKeyData_field_eq tempRepr _ _ _ _ _ _ _ _
      (dedupDataOf r₁ r₂ hk)).2.1 hmt hp ht)
  · intro r₁ r₂ hp hm ht hne hk
    exact hne ((dedupKeyData_field_eq tempRepr _ _ _ _ _ _ _ _
      (dedupDataOf r₁ r₂ hk)).1 hm hp ht)
  · intro r₁ r₂ hp hm hmt hne hk
    exact hne (htemp ((dedupKeyData_field_eq tempRepr _ _ _ _ _ _ _ _
      (dedupDataOf r₁ r₂ hk)).2.2.2 hmt hm hp))
  · intro r₁ r₂ hm hne
    constructor
    · intro hk
      exact hne ((cacheContent_field_eq _ _ _ _ (contentOf r₁ r₂ hk)).1 hm)
    · intro hk
      exact hne ((cacheContent_field_eq _ _ _ _ (simContentOf r₁ r₂ hk)).1 hm)
  · intro r₁ r₂ hp hne
    constructor
    · intro hk
      exact hne ((cacheContent_field_eq _ _ _ _ (contentOf r₁ r₂ hk)).2 hp)
    · intro hk
      exact hne ((cacheContent_field_eq _ _ _ _ (simContentOf r₁ r₂ hk)).2 hp)
  · intro r mt t
    exact ⟨rfl, rfl⟩

/-- Witness for C8 with concrete injective digest stand-ins (the raw
serialization itself) and `Nat`-valued temperatures rendered by
`natChars`. -/
theorem fingerprint_C8_witness :
    (requestDedupKey (fun l => String.mk l) natChars (⟨" Hi", "m", 5, 7⟩ : GenRequest Nat) =
      requestDedupKey (fun l => String.mk l) natChars ⟨"hi ", "m", 5, 7⟩ ∧
     requestCacheKey (fun s => s) (⟨" Hi", "m", 5, 7⟩ : GenRequest Nat) =
      requestCacheKey (fun s => s) ⟨"hi ", "m", 5, 7⟩ ∧
     requestSimKey (fun s => s) (⟨" Hi", "m", 5, 7⟩ : GenRequest Nat) =
      requestSimKey (fun s => s) ⟨"hi ", "m", 5, 7⟩) ∧
    requestDedupKey (fun l => String.mk l) natChars (⟨"p", "m", 5, 7⟩ : GenRequest Nat) ≠
      requestDedupKey (fun l => String.mk l) natChars ⟨"p", "m", 5, 9⟩ ∧
    requestCacheKey (fun s => s) (⟨"p", "m", 99, 3⟩ : GenRequest Nat) =
      requestCacheKey (fun s => s) ⟨"p", "m", 5, 7⟩ := by
  have h := fingerprint_C8 (fun l => String.mk l) natChars (fun s => s)
    (fun a b hh => congrArg String.data hh) natChars_injective (fun a b hh => hh)
  exact ⟨h.1 ⟨" Hi", "m", 5, 7⟩ ⟨"hi ", "m", 5, 7⟩ (by decide) rfl rfl rfl,
    h.2.2.2.2.1 ⟨"p", "m", 5, 7⟩ ⟨"p", "m", 5, 9⟩ rfl rfl rfl (by decide),
    (h.2.2.2.2.2.2.2 ⟨"p", "m", 5, 7⟩ 99 3).1⟩

/-- C8 counterexample: two requests that differ only in temperature share
the exact-match cache key and the similarity key, so it is not true that
any one differing field changes the cache's keys. -/
theorem fingerprint_C8_counterexample :
    ((7 : ℚ) ≠ (9 : ℚ)) ∧
    requestCacheKey (fun s => s) (⟨"hi", "m", 1000, (7 : ℚ)⟩ : GenRequest ℚ) =
      requestCacheKey (fun s => s) ⟨"hi", "m", 1000, (9 : ℚ)⟩ ∧
    requestSimKey (fun s => s) (⟨"hi", "m", 1000, (7 : ℚ)⟩ : GenRequest ℚ) =
      requestSimKey (fun s => s) ⟨"hi", "m", 1000, (9 : ℚ)⟩ :=
  ⟨by decide, rfl, rfl⟩

/-! ## Claim C1: dedup coalescing

Invariants for the all-success single-key scenario: before any caller
resumes (phase 1) there is at most one task, the entry points at it, and
every caller is ready or parked on future 0; once no more callers arrive
(phase 2) the task's resolved value is delivered to every parked
caller. -/

def phase1Inv {V E : Type} {N : Nat} (v : V) (s : DState V E N) : Prop :=
  (s.entry = none ∧ s.futures = [] ∧ ∀ i, s.callers i = CSt.ready) ∨
  (s.entry = some 0 ∧
    (s.futures = [FutSt.unres] ∨ s.futures = [FutSt.resOk v]) ∧
    ∀ i, s.callers i = CSt.ready ∨ s.callers i = CSt.waitL 0 ∨ s.callers i = CSt.waitJ 0)

def phase2Inv {V E : Type} {N : Nat} (v : V) (s : DState V E N) : Prop :=
  (s.entry = none ∧ s.futures = [] ∧ ∀ i, s.callers i = CSt.ready) ∨
  ((s.futures = [FutSt.unres] ∨ s.futures = [FutSt.resOk v]) ∧
    ∀ i, s.callers i = CSt.ready ∨ s.callers i = CSt.waitL 0 ∨ s.callers i = CSt.waitJ 0 ∨
      s.callers i = CSt.retOk v)

theorem phase1_to_phase2 {V E : Type} {N : Nat} (v : V) (s : DState V E N)
    (h : phase1Inv v s) : phase2Inv v s := by
  rcases h with ⟨he, hf, hc⟩ | ⟨he, hf, hc⟩
  · exact Or.inl ⟨he, hf, hc⟩
  · exact Or.inr ⟨hf, fun i => (hc i).imp id (fun h2 => h2.imp id Or.inl)⟩

theorem phase1_step {V E : Type} {N : Nat} (wf : Nat → Except E V) (maxPending : Nat)
    (v : V) (hmax : 1 ≤ maxPending) (hwf : wf 0 = Except.ok v)
    (s s' : DState V E N) (e : DEvent N) (he : e.isResume = false)
    (hinv : phase1Inv v s) (hs : step wf maxPending s e = some s') : phase1Inv v s' := by
  cases e with
  | arrive i =>
    rcases hinv with ⟨he₁, hf₁, hc₁⟩ | ⟨he₁, hf₁, hc₁⟩
    · have hready := hc₁ i
      have hnm : ¬ (maxPending ≤ pendingSize s) := by
        simp [pendingSize, he₁]
        omega
      simp only [step, hready, entryBlock, he₁, hnm, if_false, hf₁, List.length_nil,
        List.nil_append, Option.some.injEq] at hs
      subst hs
      refine Or.inr ⟨rfl, Or.inl rfl, ?_⟩
      intro j
      dsimp only
      rcases eq_or_ne j i with rfl | hj
      · rw [Function.update_same]
        exact Or.inr (Or.inl rfl)
      · rw [Function.update_noteq hj]
        exact Or.inl (hc₁ j)
    · rcases hc₁ i with hci | hci | hci
      · simp only [step, hci, entryBlock, he₁, Option.some.injEq] at hs
        subst hs
        refine Or.inr ⟨rfl, hf₁, ?_⟩
        intro j
        dsimp only
        rcases eq_or_ne j i with rfl | hj
        · rw [Function.update_same]
          exact Or.inr (Or.inr rfl)
        · rw [Function.update_noteq hj]
          exact hc₁ j
      · simp [step, hci] at hs
      · simp [step, hci] at hs
  | resolve k =>
    rcases hinv with ⟨he₁, hf₁, hc₁⟩ | ⟨he₁, hf₁, hc₁⟩
    · rw [show step wf maxPending s (DEvent.resolve k) =
          (match s.futures.get? k with
           | some FutSt.unres =>
             some { s with futures := s.futures.set k (FutSt.ofExcept (wf k)) }
           | _ => none) from rfl, hf₁] at hs
      simp at hs
    · rcases hf₁ with hf₁ | hf₁
      · cases k with
        | zero =>
          rw [show step wf maxPending s (DEvent.resolve 0) =
              (match s.futures.get? 0 with
               | some FutSt.unres =>
                 some { s with futures := s.futures.set 0 (FutSt.ofExcept (wf 0)) }
               | _ => none) from rfl, hf₁] at hs
          simp only [List.get?, Option.some.injEq] at hs
          subst hs
          refine Or.inr ⟨he₁, Or.inr ?_, hc₁⟩
          simp [hf₁, hwf, FutSt.ofExcept]
        | succ n =>
          rw [show step wf maxPending s (DEvent.resolve (n + 1)) =
              (match s.futures.get? (n + 1) with
               | some FutSt.unres =>
                 some { s with futures := s.futures.set (n + 1) (FutSt.ofExcept (wf (n + 1))) }
               | _ => none) from rfl, hf₁] at hs
          simp [List.get?] at hs
      · cases k with
        | zero =>
          rw [show step wf maxPending s (DEvent.resolve 0) =
              (match s.futures.get? 0 with
               | some FutSt.unres =>
                 some { s with futures := s.futures.set 0 (FutSt.ofExcept (wf 0)) }
               | _ => none) from rfl, hf₁] at hs
          simp [List.get?] at hs
        | succ n =>
          rw [show step wf maxPending s (DEvent.resolve (n + 1)) =
              (match s.futures.get? (n + 1) with
               | some FutSt.unres =>
                 some { s with futures := s.futures.set (n + 1) (FutSt.ofExcept (wf (n + 1))) }
               | _ => none) from rfl, hf₁] at hs
          simp [List.get?] at hs
  | resume i =>
    simp [DEvent.isResume] at he

theorem phase2_step {V E : Type} {N : Nat} (wf : Nat → Except E V) (maxPending : Nat)
    (v : V) (hwf : wf 0 = Except.ok v)
    (s s' : DState V E N) (e : DEvent N) (he : e.isArrive = false)
    (hinv : phase2Inv v s) (hs : step wf maxPending s e = some s') : phase2Inv v s' := by
  cases e with
  | arrive i =>
    simp [DEvent.isArrive] at he
  | resolve k =>
    rcases hinv with ⟨he₁, hf₁, hc₁⟩ | ⟨hf₁, hc₁⟩
    · rw [show step wf maxPending s (DEvent.resolve k) =
          (match s.futures.get? k with
           | some FutSt.unres =>
             some { s with futures := s.futures.set k (FutSt.ofExcept (wf k)) }
           | _ => none) from rfl, hf₁] at hs
      simp at hs
    · rcases hf₁ with hf₁ | hf₁
      · cases k with
        | zero =>
          rw [show step wf maxPending s (DEvent.resolve 0) =
              (match s.futures.get? 0 with
               | some FutSt.unres =>
                 some { s with futures := s.futures.set 0 (FutSt.ofExcept (wf 0)) }
               | _ => none) from rfl, hf₁] at hs
          simp only [List.get?, Option.some.injEq] at hs
          subst hs
          refine Or.inr ⟨Or.inr ?_, hc₁⟩
          simp [hf₁, hwf, FutSt.ofExcept]
        | succ n =>
          rw [show step wf maxPending s (DEvent.resolve (n + 1)) =
              (match s.futures.get? (n + 1) with
               | some FutSt.unres =>
                 some { s with futures := s.futures.set (n + 1) (FutSt.ofExcept (wf (n + 1))) }
               | _ => none) from rfl, hf₁] at hs
          simp [List.get?] at hs
      · cases k with
        | zero =>
          rw [show step wf maxPending s (DEvent.resolve 0) =
              (match s.futures.get? 0 with
               | some FutSt.unres =>
                 some { s with futures := s.futures.set 0 (FutSt.ofExcept (wf 0)) }
               | _ => none) from rfl, hf₁] at hs
          simp [List.get?] at hs
        | succ n =>
          rw [show step wf maxPending s (DEvent.resolve (n + 1)) =
              (match s.futures.get? (n + 1) with
               | some FutSt.unres =>
                 some { s with futures := s.futures.set (n + 1) (FutSt.ofExcept (wf (n + 1))) }
               | _ => none) from rfl, hf₁] at hs
          simp [List.get?] at hs
  | resume i =>
    rcases hinv with ⟨he₁, hf₁, hc₁⟩ | ⟨hf₁, hc₁⟩
    · simp [step, hc₁ i] at hs
    · rcases hc₁ i with hci | hci | hci | hci
      · simp [step, hci] at hs
      · rcases hf₁ with hf₁ | hf₁
        · simp [step, hci, hf₁, List.get?] at hs
        · simp only [step, hci, hf₁, List.get?, Option.some.injEq] at hs
          subst hs
          refine Or.inr ⟨Or.inr rfl, ?_⟩
          intro j
          dsimp only
          rcases eq_or_ne j i with rfl | hj
          · rw [Function.update_same]
            exact Or.inr (Or.inr (Or.inr rfl))
          · rw [Function.update_noteq hj]
            exact hc₁ j
      · rcases hf₁ with hf₁ | hf₁
        · simp [step, hci, hf₁, List.get?] at hs
        · simp only [step, hci, hf₁, List.get?, Option.some.injEq] at hs
          subst hs
          refine Or.inr ⟨Or.inr rfl, ?_⟩
          intro j
          dsimp only
          rcases eq_or_ne j i with rfl | hj
          · rw [Function.update_same]
            exact Or.inr (Or.inr (Or.inr rfl))
          · rw [Function.update_noteq hj]
            exact hc₁ j
      · simp [step, hci] at hs

theorem phase1_run {V E : Type} {N : Nat} (wf : Nat → Except E V) (maxPending : Nat)
    (v : V) (hmax : 1 ≤ maxPending) (hwf : wf 0 = Except.ok v) :
    ∀ t : List (DEvent N), (∀ e ∈ t, e.isResume = false) →
    ∀ s s' : DState V E N, phase1Inv v s → runD wf maxPending s t = some s' →
      phase1Inv v s' := by
  intro t
  induction t with
  | nil =>
    intro _ s s' hinv h
    obtain rfl := Option.some.inj h
    exact hinv
  | cons e t ih =>
    intro hall s s' hinv h
    rw [runD_cons] at h
    cases hstep : step wf maxPending s e with
    | none => rw [hstep] at h; exact absurd h (by simp)
    | some s₁ =>
      rw [hstep] at h
      exact ih (fun f hf => hall f (List.mem_cons_of_mem e hf)) s₁ s'
        (phase1_step wf maxPending v hmax hwf s s₁ e (hall e (List.mem_cons_self e t))
          hinv hstep) h

theorem phase2_run {V E : Type} {N : Nat} (wf : Nat → Except E V) (maxPending : Nat)
    (v : V) (hwf : wf 0 = Except.ok v) :
    ∀ t : List (DEvent N), (∀ e ∈ t, e.isArrive = false) →
    ∀ s s' : DState V E N, phase2Inv v s → runD wf maxPending s t = some s' →
      phase2Inv v s' := by
  intro t
  induction t with
  | nil =>
    intro _ s s' hinv h
    obtain rfl := Option.some.inj h
    exact hinv
  | cons e t ih =>
    intro hall s s' hinv h
    rw [runD_cons] at h
    cases hstep : step wf maxPending s e with
    | none => rw [hstep] at h; exact absurd h (by simp)
    | some s₁ =>
      rw [hstep] at h
      exact ih (fun f hf => hall f (List.mem_cons_of_mem e hf)) s₁ s'
        (phase2_step wf maxPending v hwf s s₁ e (hall e (List.mem_cons_self e t))
          hinv hstep) h

theorem outstanding_le_of_phase2 {V E : Type} {N : Nat} (v : V) (s : DState V E N)
    (h : phase2Inv v s) : outstanding s ≤ 1 := by
  rcases h with ⟨-, hf, -⟩ | ⟨hf, -⟩
  · simp [outstanding, hf]
  · rcases hf with hf | hf <;> simp [outstanding, hf, FutSt.isUnres]

/-- C1: for any number `N ≥ 2` of callers of `execute_or_wait` carrying
the same canonical key, under cooperative scheduling, if every caller
arrives before any caller resumes (the calls are concurrent) and the work
succeeds with value `v`, then in every complete interleaving exactly one
task was created (the work ran exactly once), every caller returns the
same value `v`, and at every instant of the execution at most one
upstream execution is outstanding for the key. -/
theorem dedup_coalescing_C1 {V E : Type} (wf : Nat → Except E V) (maxPending N : Nat)
    (v : V) (t₁ t₂ : List (DEvent N)) (s : DState V E N)
    (hN : 2 ≤ N) (hmax : 1 ≤ maxPending) (hwf : wf 0 = Except.ok v)
    (h₁ : ∀ e ∈ t₁, e.isResume = false)
    (h₂ : ∀ e ∈ t₂, e.isArrive = false)
    (hrun : runD wf maxPending (initD V E N) (t₁ ++ t₂) = some s)
    (hdone : ∀ i, (s.callers i).isRet = true) :
    s.futures.length = 1 ∧ (∀ i, s.callers i = CSt.retOk v) ∧
    (∀ ta tb : List (DEvent N), t₁ ++ t₂ = ta ++ tb →
      ∀ s', runD wf maxPending (initD V E N) ta = some s' → outstanding s' ≤ 1) := by
  have hinit : phase1Inv v (initD V E N) := Or.inl ⟨rfl, rfl, fun i => rfl⟩
  rw [runD_append] at hrun
  cases hmid : runD wf maxPending (initD V E N) t₁ with
  | none => rw [hmid] at hrun; exact absurd hrun (by simp)
  | some m =>
    rw [hmid] at hrun
    have hm1 : phase1Inv v m := phase1_run wf maxPending v hmax hwf t₁ h₁ _ m hinit hmid
    have hs2 : phase2Inv v s :=
      phase2_run wf maxPending v hwf t₂ h₂ m s (phase1_to_phase2 v m hm1) hrun
    have i0 : Fin N := ⟨0, by omega⟩
    rcases hs2 with ⟨-, -, hc⟩ | ⟨hf, hc⟩
    · have hd := hdone i0
      rw [hc i0] at hd
      simp [CSt.isRet] at hd
    · refine ⟨?_, ?_, ?_⟩
      · rcases hf with hf | hf <;> simp [hf]
      · intro i
        rcases hc i with hci | hci | hci | hci
        · have hd := hdone i
          rw [hci] at hd
          simp [CSt.isRet] at hd
        · have hd := hdone i
          rw [hci] at hd
          simp [CSt.isRet] at hd
        · have hd := hdone i
          rw [hci] at hd
          simp [CSt.isRet] at hd
        · exact hci
      · intro ta tb heq s' hrun'
        rcases List.append_eq_append_iff.1 heq with ⟨u, hu₁, hu₂⟩ | ⟨u, hu₁, hu₂⟩
        · subst hu₁
          rw [runD_append, hmid] at hrun'
          have hu : ∀ e ∈ u, DEvent.isArrive e = false := by
            intro e hme
            exact h₂ e (hu₂ ▸ List.mem_append_left tb hme)
          exact outstanding_le_of_phase2 v s'
            (phase2_run wf maxPending v hwf u hu m s' (phase1_to_phase2 v m hm1) hrun')
        · have hta : ∀ e ∈ ta, DEvent.isResume e = false := by
            intro e hme
            exact h₁ e (hu₁ ▸ List.mem_append_left u hme)
          have hp1 := phase1_run wf maxPending v hmax hwf ta hta _ s' hinit hrun'
          rcases hp1 with ⟨-, hf', -⟩ | ⟨-, hf', -⟩
          · simp [outstanding, hf']
          · rcases hf' with hf' | hf' <;> simp [outstanding, hf', FutSt.isUnres]

/-- Witness for C1: two concurrent callers, work returning `7`; the
complete schedule `arrive 0, arrive 1, resolve, resume 0, resume 1`
delivers `7` to both callers with exactly one task created. -/
theorem dedup_coalescing_C1_witness :
    ∃ s : DState Nat Unit 2,
      runD (fun _ => Except.ok 7) 1 (initD Nat Unit 2)
          ([DEvent.arrive 0, DEvent.arrive 1, DEvent.resolve 0] ++
            [DEvent.resume 0, DEvent.resume 1]) = some s ∧
      s.futures.length = 1 ∧ (∀ i, s.callers i = CSt.retOk 7) := by
  obtain ⟨hlen, hret, -⟩ := dedup_coalescing_C1
    (fun _ => (Except.ok 7 : Except Unit Nat)) 1 2 7
    [DEvent.arrive 0, DEvent.arrive 1, DEvent.resolve 0] [DEvent.resume 0, DEvent.resume 1]
    _ (by omega) (by omega) rfl (by decide) (by decide) rfl (by decide)
  exact ⟨_, rfl, hlen, hret⟩

/-! ## Claim C5: joiner retries after leader failure

Scenario machinery: one leader whose work fails, one joiner that retries
as a new leader against work that succeeds.  `c5Inv` enumerates the
reachable configurations of the two callers after both have arrived. -/

theorem DEvent.eq_resolve {N : Nat} (ev : DEvent N) (h1 : ev.isArrive = false)
    (h2 : ev.isResume = false) : ∃ k, ev = DEvent.resolve k := by
  cases ev with
  | arrive i => simp [DEvent.isArrive] at h1
  | resolve k => exact ⟨k, rfl⟩
  | resume i => simp [DEvent.isResume] at h2

/-- A resolve-only trace from a state with no futures is empty. -/
theorem c5_run_resolves_empty {V E : Type} (wf : Nat → Except E V) (maxPending : Nat) :
    ∀ u : List (DEvent 2), (∀ ev ∈ u, ev.isArrive = false ∧ ev.isResume = false) →
    ∀ s s' : DState V E 2, s.futures = [] →
      runD wf maxPending s u = some s' → s' = s := by
  intro u
  cases u with
  | nil =>
    intro _ s s' _ h
    exact (Option.some.inj h).symm
  | cons ev rest =>
    intro hall s s' hf h
    obtain ⟨k, rfl⟩ := DEvent.eq_resolve ev (hall ev (List.mem_cons_self ev rest)).1
      (hall ev (List.mem_cons_self ev rest)).2
    rw [runD_cons] at h
    rw [show step wf maxPending s (DEvent.resolve k) =
        (match s.futures.get? k with
         | some FutSt.unres =>
           some { s with futures := s.futures.set k (FutSt.ofExcept (wf k)) }
         | _ => none) from rfl, hf] at h
    simp at h

/-- Resolve-only traces leave the entry and the callers untouched and
keep future 0 in its unresolved-or-failed shape. -/
theorem c5_run_resolves {V E : Type} (wf : Nat → Except E V) (maxPending : Nat) (e : E)
    (hwf0 : wf 0 = Except.error e) :
    ∀ u : List (DEvent 2), (∀ ev ∈ u, ev.isArrive = false ∧ ev.isResume = false) →
    ∀ s s' : DState V E 2, s.entry = some 0 →
      (s.futures = [FutSt.unres] ∨ s.futures = [FutSt.resErr e]) →
      runD wf maxPending s u = some s' →
      s'.entry = some 0 ∧
      (s'.futures = [FutSt.unres] ∨ s'.futures = [FutSt.resErr e]) ∧
      s'.callers = s.callers := by
  intro u
  induction u with
  | nil =>
    intro _ s s' he hf h
    obtain rfl := Option.some.inj h
    exact ⟨he, hf, rfl⟩
  | cons ev rest ih =>
    intro hall s s' he hf h
    obtain ⟨k, rfl⟩ := DEvent.eq_resolve ev (hall ev (List.mem_cons_self ev rest)).1
      (hall ev (List.mem_cons_self ev rest)).2
    rw [runD_cons] at h
    rcases hf with hf | hf
    · cases k with
      | zero =>
        rw [show step wf maxPending s (DEvent.resolve 0) =
            (match s.futures.get? 0 with
             | some FutSt.unres =>
               some { s with futures := s.futures.set 0 (FutSt.ofExcept (wf 0)) }
             | _ => none) from rfl, hf] at h
        simp only [List.get?] at h
        have hstep := ih (fun f hmf => hall f (List.mem_cons_of_mem _ hmf))
          { s with futures := [FutSt.unres].set 0 (FutSt.ofExcept (wf 0)) } s' he
          (Or.inr (by simp [hwf0, FutSt.ofExcept])) h
        exact ⟨hstep.1, hstep.2.1, hstep.2.2⟩
      | succ n =>
        rw [show step wf maxPending s (DEvent.resolve (n + 1)) =
            (match s.futures.get? (n + 1) with
             | some FutSt.unres =>
               some { s with futures := s.futures.set (n + 1) (FutSt.ofExcept (wf (n + 1))) }
             | _ => none) from rfl, hf] at h
        simp [List.get?] at h
    · cases k with
      | zero =>
        rw [show step wf maxPending s (DEvent.resolve 0) =
            (match s.futures.get? 0 with
             | some FutSt.unres =>
               some { s with futures := s.futures.set 0 (FutSt.ofExcept (wf 0)) }
             | _ => none) from rfl, hf] at h
        simp [List.get?] at h
      | succ n =>
        rw [show step wf maxPending s (DEvent.resolve (n + 1)) =
            (match s.futures.get? (n + 1) with
             | some FutSt.unres =>
               some { s with futures := s.futures.set (n + 1) (FutSt.ofExcept (wf (n + 1))) }
             | _ => none) from rfl, hf] at h
        simp [List.get?] at h

theorem step_resolve_char {V E : Type} {N : Nat} (wf : Nat → Except E V) (maxPending : Nat)
    (s s' : DState V E N) (k : Nat)
    (hs : step wf maxPending s (DEvent.resolve k) = some s') :
    s.futures.get? k = some FutSt.unres ∧
    s' = { s with futures := s.futures.set k (FutSt.ofExcept (wf k)) } := by
  rw [show step wf maxPending s (DEvent.resolve k) =
      (match s.futures.get? k with
       | some FutSt.unres =>
         some { s with futures := s.futures.set k (FutSt.ofExcept (wf k)) }
       | _ => none) from rfl] at hs
  cases hget : s.futures.get? k with
  | none => rw [hget] at hs; simp at hs
  | some f =>
    cases f with
    | unres =>
      rw [hget] at hs
      exact ⟨rfl, (Option.some.inj hs).symm⟩
    | resOk v' => rw [hget] at hs; simp at hs
    | resErr e' => rw [hget] at hs; simp at hs

theorem step_resume_char {V E : Type} {N : Nat} (wf : Nat → Except E V) (maxPending : Nat)
    (s s' : DState V E N) (i : Fin N)
    (hs : step wf maxPending s (DEvent.resume i) = some s') :
    (∃ (k : Nat) (v' : V), s.callers i = CSt.waitL k ∧
      s.futures.get? k = some (FutSt.resOk v') ∧
      s' = { s with entry := none,
                    callers := Function.update s.callers i (CSt.retOk v') }) ∨
    (∃ (k : Nat) (e' : E), s.callers i = CSt.waitL k ∧
      s.futures.get? k = some (FutSt.resErr e') ∧
      s' = { s with entry := none,
                    callers := Function.update s.callers i (CSt.retErr e') }) ∨
    (∃ (k : Nat) (v' : V), s.callers i = CSt.waitJ k ∧
      s.futures.get? k = some (FutSt.resOk v') ∧
      s' = { s with callers := Function.update s.callers i (CSt.retOk v') }) ∨
    (∃ (k : Nat) (e' : E), s.callers i = CSt.waitJ k ∧
      s.futures.get? k = some (FutSt.resErr e') ∧
      s' = entryBlock maxPending
        { s with entry := none,
                 callers := Function.update s.callers i CSt.ready } i) := by
  rw [show step wf maxPending s (DEvent.resume i) =
      (match s.callers i with
       | CSt.waitL k =>
         match s.futures.get? k with
         | some (FutSt.resOk v) =>
           some { s with entry := none,
                         callers := Function.update s.callers i (CSt.retOk v) }
         | some (FutSt.resErr e) =>
           some { s with entry := none,
                         callers := Function.update s.callers i (CSt.retErr e) }
         | _ => none
       | CSt.waitJ k =>
         match s.futures.get? k with
         | some (FutSt.resOk v) =>
           some { s with callers := Function.update s.callers i (CSt.retOk v) }
         | some (FutSt.resErr _) =>
           some (entryBlock maxPending
             { s with entry := none, callers := Function.update s.callers i CSt.ready } i)
         | _ => none
       | _ => none) from rfl] at hs
  cases hci : s.callers i with
  | ready => rw [hci] at hs; simp at hs
  | rejected => rw [hci] at hs; simp at hs
  | retOk v' => rw [hci] at hs; simp at hs
  | retErr e' => rw [hci] at hs; simp at hs
  | waitL k =>
    rw [hci] at hs
    dsimp only at hs
    cases hget : s.futures.get? k with
    | none => rw [hget] at hs; simp at hs
    | some f =>
      cases f with
      | unres => rw [hget] at hs; simp at hs
      | resOk v' =>
        rw [hget] at hs
        exact Or.inl ⟨k, v', rfl, hget, (Option.some.inj hs).symm⟩
      | resErr e' =>
        rw [hget] at hs
        exact Or.inr (Or.inl ⟨k, e', rfl, hget, (Option.some.inj hs).symm⟩)
  | waitJ k =>
    rw [hci] at hs
    dsimp only at hs
    cases hget : s.futures.get? k with
    | none => rw [hget] at hs; simp at hs
    | some f =>
      cases f with
      | unres => rw [hget] at hs; simp at hs
      | resOk v' =>
        rw [hget] at hs
        exact Or.inr (Or.inr (Or.inl ⟨k, v', rfl, hget, (Option.some.inj hs).symm⟩))
      | resErr e' =>
        rw [hget] at hs
        exact Or.inr (Or.inr (Or.inr ⟨k, e', rfl, hget, (Option.some.inj hs).symm⟩))

theorem fin2_cases (a b : Fin 2) (h : a ≠ b) : ∀ i : Fin 2, i = a ∨ i = b := by
  revert a b h
  decide

/-- Reachable configurations of the failed-leader / retrying-joiner
scenario after both callers arrived: `ℓ` is the leader parked on (or
returned from) failed future 0, `j` the joiner that either still awaits
future 0, or has retried as leader of future 1, or has returned its
value. -/
def c5Inv {V E : Type} (e : E) (v : V) (ℓ j : Fin 2) (s : DState V E 2) : Prop :=
  (s.entry = some 0 ∧ (s.futures = [FutSt.unres] ∨ s.futures = [FutSt.resErr e]) ∧
    s.callers ℓ = CSt.waitL 0 ∧ s.callers j = CSt.waitJ 0) ∨
  (s.entry = none ∧ s.futures = [FutSt.resErr e] ∧
    s.callers ℓ = CSt.retErr e ∧ s.callers j = CSt.waitJ 0) ∨
  (s.entry = some 1 ∧ s.futures = [FutSt.resErr e, FutSt.unres] ∧
    s.callers ℓ = CSt.waitL 0 ∧ s.callers j = CSt.waitL 1) ∨
  (s.entry = some 1 ∧ s.futures = [FutSt.resErr e, FutSt.resOk v] ∧
    s.callers ℓ = CSt.waitL 0 ∧ s.callers j = CSt.waitL 1) ∨
  ((s.entry = none ∨ s.entry = some 1) ∧ s.futures = [FutSt.resErr e, FutSt.unres] ∧
    s.callers ℓ = CSt.retErr e ∧ s.callers j = CSt.waitL 1) ∨
  ((s.entry = none ∨ s.entry = some 1) ∧ s.futures = [FutSt.resErr e, FutSt.resOk v] ∧
    s.callers ℓ = CSt.retErr e ∧ s.callers j = CSt.waitL 1) ∨
  (s.entry = none ∧ s.futures = [FutSt.resErr e, FutSt.resOk v] ∧
    s.callers ℓ = CSt.waitL 0 ∧ s.callers j = CSt.retOk v) ∨
  (s.entry = none ∧ s.futures = [FutSt.resErr e, FutSt.resOk v] ∧
    s.callers ℓ = CSt.retErr e ∧ s.callers j = CSt.retOk v)

theorem c5Inv_step_resolve {V E : Type} (wf : Nat → Except E V) (maxPending : Nat)
    (e : E) (v : V) (ℓ j : Fin 2)
    (hwf0 : wf 0 = Except.error e) (hwf1 : wf 1 = Except.ok v)
    (s s' : DState V E 2) (k : Nat)
    (hinv : c5Inv e v ℓ j s)
    (hs : step wf maxPending s (DEvent.resolve k) = some s') : c5Inv e v ℓ j s' := by
  obtain ⟨hget, rfl⟩ := step_resolve_char wf maxPending s s' k hs
  rcases hinv with ⟨he, hf, hcl, hcj⟩ | ⟨he, hf, hcl, hcj⟩ | ⟨he, hf, hcl, hcj⟩ |
    ⟨he, hf, hcl, hcj⟩ | ⟨he, hf, hcl, hcj⟩ | ⟨he, hf, hcl, hcj⟩ | ⟨he, hf, hcl, hcj⟩ |
    ⟨he, hf, hcl, hcj⟩
  · rcases hf with hf | hf
    · match k with
      | 0 =>
        refine Or.inl ⟨he, Or.inr ?_, hcl, hcj⟩
        simp [hf, hwf0, FutSt.ofExcept]
      | n + 1 => rw [hf] at hget; simp [List.get?] at hget
    · match k with
      | 0 => rw [hf] at hget; simp [List.get?] at hget
      | n + 1 => rw [hf] at hget; simp [List.get?] at hget
  · match k with
    | 0 => rw [hf] at hget; simp [List.get?] at hget
    | n + 1 => rw [hf] at hget; simp [List.get?] at hget
  · match k with
    | 0 => rw [hf] at hget; simp [List.get?] at hget
    | 1 =>
      refine Or.inr (Or.inr (Or.inr (Or.inl ⟨he, ?_, hcl, hcj⟩)))
      simp [hf, hwf1, FutSt.ofExcept]
    | n + 2 => rw [hf] at hget; simp [List.get?] at hget
  · match k with
    | 0 => rw [hf] at hget; simp [List.get?] at hget
    | 1 => rw [hf] at hget; simp [List.get?] at hget
    | n + 2 => rw [hf] at hget; simp [List.get?] at hget
  · match k with
    | 0 => rw [hf] at hget; simp [List.get?] at hget
    | 1 =>
      refine Or.inr (Or.inr (Or.inr (Or.inr (Or.inr (Or.inl ⟨he, ?_, hcl, hcj⟩)))))
      simp [hf, hwf1, FutSt.ofExcept]
    | n + 2 => rw [hf] at hget; simp [List.get?] at hget
  · match k with
    | 0 => rw [hf] at hget; simp [List.get?] at hget
    | 1 => rw [hf] at hget; simp [List.get?] at hget
    | n + 2 => rw [hf] at hget; simp [List.get?] at hget
  · match k with
    | 0 => rw [hf] at hget; simp [List.get?] at hget
    | 1 => rw [hf] at hget; simp [List.get?] at hget
    | n + 2 => rw [hf] at hget; simp [List.get?] at hget
  · match k with
    | 0 => rw [hf] at hget; simp [List.get?] at hget
    | 1 => rw [hf] at hget; simp [List.get?] at hget
    | n + 2 => rw [hf] at hget; simp [List.get?] at hget

theorem c5Inv_step_resume {V E : Type} (wf : Nat → Except E V) (maxPending : Nat)
    (e : E) (v : V) (ℓ j : Fin 2) (hlj : ℓ ≠ j) (hmax : 1 ≤ maxPending)
    (s s' : DState V E 2) (i : Fin 2)
    (hinv : c5Inv e v ℓ j s)
    (hs : step wf maxPending s (DEvent.resume i) = some s') : c5Inv e v ℓ j s' := by
  have hjl : j ≠ ℓ := Ne.symm hlj
  rcases fin2_cases ℓ j hlj i with rfl | rfl
  · rcases step_resume_char wf maxPending s s' i hs with
      ⟨k, v', hw, hget, rfl⟩ | ⟨k, e', hw, hget, rfl⟩ | ⟨k, v', hw, hget, rfl⟩ |
      ⟨k, e', hw, hget, rfl⟩
    · -- leader resumes with a success: impossible, future 0 never succeeds
      rcases hinv with ⟨he, hf, hcl, hcj⟩ | ⟨he, hf, hcl, hcj⟩ | ⟨he, hf, hcl, hcj⟩ |
        ⟨he, hf, hcl, hcj⟩ | ⟨he, hf, hcl, hcj⟩ | ⟨he, hf, hcl, hcj⟩ | ⟨he, hf, hcl, hcj⟩ |
        ⟨he, hf, hcl, hcj⟩
      · rcases hf with hf | hf <;>
          (rw [hcl] at hw; injection hw with hk; subst hk;
           rw [hf] at hget; simp [List.get?] at hget)
      · rw [hcl] at hw; simp at hw
      · rw [hcl] at hw; injection hw with hk; subst hk
        rw [hf] at hget; simp [List.get?] at hget
      · rw [hcl] at hw; injection hw with hk; subst hk
        rw [hf] at hget; simp [List.get?] at hget
      · rw [hcl] at hw; simp at hw
      · rw [hcl] at hw; simp at hw
      · rw [hcl] at hw; injection hw with hk; subst hk
        rw [hf] at hget; simp [List.get?] at hget
      · rw [hcl] at hw; simp at hw
    · -- leader resumes from the failed future: the finally block pops the entry
      rcases hinv with ⟨he, hf, hcl, hcj⟩ | ⟨he, hf, hcl, hcj⟩ | ⟨he, hf, hcl, hcj⟩ |
        ⟨he, hf, hcl, hcj⟩ | ⟨he, hf, hcl, hcj⟩ | ⟨he, hf, hcl, hcj⟩ | ⟨he, hf, hcl, hcj⟩ |
        ⟨he, hf, hcl, hcj⟩
      · rw [hcl] at hw; injection hw with hk; subst hk
        rcases hf with hf | hf
        · rw [hf] at hget; simp [List.get?] at hget
        · rw [hf] at hget; simp only [List.get?, Option.some.injEq] at hget
          obtain rfl : e = e' := by injection hget
          refine Or.inr (Or.inl ⟨rfl, hf, ?_, ?_⟩)
          · dsimp only
            rw [Function.update_same]
          · dsimp only
            rw [Function.update_noteq hjl]
            exact hcj
      · rw [hcl] at hw; simp at hw
      · rw [hcl] at hw; injection hw with hk; subst hk
        rw [hf] at hget; simp only [List.get?, Option.some.injEq] at hget
        obtain rfl : e = e' := by injection hget
        refine Or.inr (Or.inr (Or.inr (Or.inr (Or.inl ⟨Or.inl rfl, hf, ?_, ?_⟩))))
        · dsimp only
          rw [Function.update_same]
        · dsimp only
          rw [Function.update_noteq hjl]
          exact hcj
      · rw [hcl] at hw; injection hw with hk; subst hk
        rw [hf] at hget; simp only [List.get?, Option.some.injEq] at hget
        obtain rfl : e = e' := by injection hget
        refine Or.inr (Or.inr (Or.inr (Or.inr (Or.inr (Or.inl ⟨Or.inl rfl, hf, ?_, ?_⟩)))))
        · dsimp only
          rw [Function.update_same]
        · dsimp only
          rw [Function.update_noteq hjl]
          exact hcj
      · rw [hcl] at hw; simp at hw
      · rw [hcl] at hw; simp at hw
      · rw [hcl] at hw; injection hw with hk; subst hk
        rw [hf] at hget; simp only [List.get?, Option.some.injEq] at hget
        obtain rfl : e = e' := by injection hget
        refine Or.inr (Or.inr (Or.inr (Or.inr (Or.inr (Or.inr (Or.inr
          ⟨rfl, hf, ?_, ?_⟩))))))
        · dsimp only
          rw [Function.update_same]
        · dsimp only
          rw [Function.update_noteq hjl]
          exact hcj
      · rw [hcl] at hw; simp at hw
    · -- leader is never a joiner
      rcases hinv with ⟨he, hf, hcl, hcj⟩ | ⟨he, hf, hcl, hcj⟩ | ⟨he, hf, hcl, hcj⟩ |
        ⟨he, hf, hcl, hcj⟩ | ⟨he, hf, hcl, hcj⟩ | ⟨he, hf, hcl, hcj⟩ | ⟨he, hf, hcl, hcj⟩ |
        ⟨he, hf, hcl, hcj⟩ <;> rw [hcl] at hw <;> simp at hw
    · rcases hinv with ⟨he, hf, hcl, hcj⟩ | ⟨he, hf, hcl, hcj⟩ | ⟨he, hf, hcl, hcj⟩ |
        ⟨he, hf, hcl, hcj⟩ | ⟨he, hf, hcl, hcj⟩ | ⟨he, hf, hcl, hcj⟩ | ⟨he, hf, hcl, hcj⟩ |
        ⟨he, hf, hcl, hcj⟩ <;> rw [hcl] at hw <;> simp at hw
  · rcases step_resume_char wf maxPending s s' i hs with
      ⟨k, v', hw, hget, rfl⟩ | ⟨k, e', hw, hget, rfl⟩ | ⟨k, v', hw, hget, rfl⟩ |
      ⟨k, e', hw, hget, rfl⟩
    · -- joiner as second-attempt leader resumes with the success value
      rcases hinv with ⟨he, hf, hcl, hcj⟩ | ⟨he, hf, hcl, hcj⟩ | ⟨he, hf, hcl, hcj⟩ |
        ⟨he, hf, hcl, hcj⟩ | ⟨he, hf, hcl, hcj⟩ | ⟨he, hf, hcl, hcj⟩ | ⟨he, hf, hcl, hcj⟩ |
        ⟨he, hf, hcl, hcj⟩
      · rw [hcj] at hw; simp at hw
      · rw [hcj] at hw; simp at hw
      · rw [hcj] at hw; injection hw with hk; subst hk
        rw [hf] at hget; simp [List.get?] at hget
      · rw [hcj] at hw; injection hw with hk; subst hk
        rw [hf] at hget; simp only [List.get?, Option.some.injEq] at hget
        obtain rfl : v = v' := by injection hget
        refine Or.inr (Or.inr (Or.inr (Or.inr (Or.inr (Or.inr (Or.inl
          ⟨rfl, hf, ?_, ?_⟩))))))
        · dsimp only
          rw [Function.update_noteq hlj]
          exact hcl
        · dsimp only
          rw [Function.update_same]
      · rw [hcj] at hw; injection hw with hk; subst hk
        rw [hf] at hget; simp [List.get?] at hget
      · rw [hcj] at hw; injection hw with hk; subst hk
        rw [hf] at hget; simp only [List.get?, Option.some.injEq] at hget
        obtain rfl : v = v' := by injection hget
        refine Or.inr (Or.inr (Or.inr (Or.inr (Or.inr (Or.inr (Or.inr
          ⟨rfl, hf, ?_, ?_⟩))))))
        · dsimp only
          rw [Function.update_noteq hlj]
          exact hcl
        · dsimp only
          rw [Function.update_same]
      · rw [hcj] at hw; simp at hw
      · rw [hcj] at hw; simp at hw
    · -- joiner parked as waitL never sees a failure on future 1
      rcases hinv with ⟨he, hf, hcl, hcj⟩ | ⟨he, hf, hcl, hcj⟩ | ⟨he, hf, hcl, hcj⟩ |
        ⟨he, hf, hcl, hcj⟩ | ⟨he, hf, hcl, hcj⟩ | ⟨he, hf, hcl, hcj⟩ | ⟨he, hf, hcl, hcj⟩ |
        ⟨he, hf, hcl, hcj⟩
      · rw [hcj] at hw; simp at hw
      · rw [hcj] at hw; simp at hw
      · rw [hcj] at hw; injection hw with hk; subst hk
        rw [hf] at hget; simp [List.get?] at hget
      · rw [hcj] at hw; injection hw with hk; subst hk
        rw [hf] at hget; simp [List.get?] at hget
      · rw [hcj] at hw; injection hw with hk; subst hk
        rw [hf] at hget; simp [List.get?] at hget
      · rw [hcj] at hw; injection hw with hk; subst hk
        rw [hf] at hget; simp [List.get?] at hget
      · rw [hcj] at hw; simp at hw
      · rw [hcj] at hw; simp at hw
    · -- joiner awaiting future 0 never sees it succeed
      rcases hinv with ⟨he, hf, hcl, hcj⟩ | ⟨he, hf, hcl, hcj⟩ | ⟨he, hf, hcl, hcj⟩ |
        ⟨he, hf, hcl, hcj⟩ | ⟨he, hf, hcl, hcj⟩ | ⟨he, hf, hcl, hcj⟩ | ⟨he, hf, hcl, hcj⟩ |
        ⟨he, hf, hcl, hcj⟩
      · rw [hcj] at hw; injection hw with hk; subst hk
        rcases hf with hf | hf <;> (rw [hf] at hget; simp [List.get?] at hget)
      · rw [hcj] at hw; injection hw with hk; subst hk
        rw [hf] at hget; simp [List.get?] at hget
      · rw [hcj] at hw; simp at hw
      · rw [hcj] at hw; simp at hw
      · rw [hcj] at hw; simp at hw
      · rw [hcj] at hw; simp at hw
      · rw [hcj] at hw; simp at hw
      · rw [hcj] at hw; simp at hw
    · -- joiner observes the failure: drop the entry and retry as new leader
      rcases hinv with ⟨he, hf, hcl, hcj⟩ | ⟨he, hf, hcl, hcj⟩ | ⟨he, hf, hcl, hcj⟩ |
        ⟨he, hf, hcl, hcj⟩ | ⟨he, hf, hcl, hcj⟩ | ⟨he, hf, hcl, hcj⟩ | ⟨he, hf, hcl, hcj⟩ |
        ⟨he, hf, hcl, hcj⟩
      · rw [hcj] at hw; injection hw with hk; subst hk
        rcases hf with hf | hf
        · rw [hf] at hget; simp [List.get?] at hget
        · have hm0 : ¬ (maxPending ≤ 0) := by omega
          refine Or.inr (Or.inr (Or.inl ⟨?_, ?_, ?_, ?_⟩)) <;>
            simp [entryBlock, pendingSize, hm0, hf, Function.update_apply, hlj, hjl, hcl]
      · rw [hcj] at hw; injection hw with hk; subst hk
        rw [hf] at hget; simp only [List.get?, Option.some.injEq] at hget
        have hm0 : ¬ (maxPending ≤ 0) := by omega
        refine Or.inr (Or.inr (Or.inr (Or.inr (Or.inl ⟨Or.inr ?_, ?_, ?_, ?_⟩)))) <;>
          simp [entryBlock, pendingSize, hm0, hf, Function.update_apply, hlj, hjl, hcl]
      · rw [hcj] at hw; simp at hw
      · rw [hcj] at hw; simp at hw
      · rw [hcj] at hw; simp at hw
      · rw [hcj] at hw; simp at hw
      · rw [hcj] at hw; simp at hw
      · rw [hcj] at hw; simp at hw

theorem c5Inv_run {V E : Type} (wf : Nat → Except E V) (maxPending : Nat)
    (e : E) (v : V) (ℓ j : Fin 2) (hlj : ℓ ≠ j) (hmax : 1 ≤ maxPending)
    (hwf0 : wf 0 = Except.error e) (hwf1 : wf 1 = Except.ok v) :
    ∀ t : List (DEvent 2), (∀ ev ∈ t, ev.isArrive = false) →
    ∀ s s' : DState V E 2, c5Inv e v ℓ j s → runD wf maxPending s t = some s' →
      c5Inv e v ℓ j s' := by
  intro t
  induction t with
  | nil =>
    intro _ s s' hinv h
    obtain rfl := Option.some.inj h
    exact hinv
  | cons ev rest ih =>
    intro hall s s' hinv h
    rw [runD_cons] at h
    cases hstep : step wf maxPending s ev with
    | none => rw [hstep] at h; exact absurd h (by simp)
    | some s₁ =>
      rw [hstep] at h
      refine ih (fun f hf => hall f (List.mem_cons_of_mem ev hf)) s₁ s' ?_ h
      cases ev with
      | arrive i =>
        have := hall (DEvent.arrive i) (List.mem_cons_self _ rest)
        simp [DEvent.isArrive] at this
      | resolve k => exact c5Inv_step_resolve wf maxPending e v ℓ j hwf0 hwf1 s s₁ k hinv hstep
      | resume i =>
        exact c5Inv_step_resume wf maxPending e v ℓ j hlj hmax s s₁ i hinv hstep

/-- C5: leader-failure retry.  Two callers with the same key under
cooperative scheduling: both arrive while the entry is pending (the
second becomes the single joiner), the first execution of the work fails
with `e`, the retried execution succeeds with `v`.  In every complete
interleaving of this scenario the work ran exactly twice (two tasks), the
leader surfaces the failure, and the joiner — having dropped the failed
pending entry and retried as a new leader — ends with the success
value. -/
theorem dedup_retry_C5 {V E : Type} (wf : Nat → Except E V) (maxPending : Nat)
    (e : E) (v : V) (ℓ j : Fin 2) (u₀ u₁ u₂ t₂ : List (DEvent 2)) (s : DState V E 2)
    (hlj : ℓ ≠ j) (hmax : 1 ≤ maxPending)
    (hwf0 : wf 0 = Except.error e) (hwf1 : wf 1 = Except.ok v)
    (hu₀ : ∀ ev ∈ u₀, ev.isArrive = false ∧ ev.isResume = false)
    (hu₁ : ∀ ev ∈ u₁, ev.isArrive = false ∧ ev.isResume = false)
    (hu₂ : ∀ ev ∈ u₂, ev.isArrive = false)
    (ht₂ : ∀ ev ∈ t₂, ev.isArrive = false)
    (hrun : runD wf maxPending (initD V E 2)
      (u₀ ++ (DEvent.arrive ℓ :: (u₁ ++ (DEvent.arrive j :: (u₂ ++ t₂))))) = some s)
    (hdone : (s.callers ℓ).isRet = true ∧ (s.callers j).isRet = true) :
    s.futures.length = 2 ∧ s.callers ℓ = CSt.retErr e ∧ s.callers j = CSt.retOk v := by
  have hjl : j ≠ ℓ := Ne.symm hlj
  have hm0 : ¬ (maxPending ≤ 0) := by omega
  rw [runD_append] at hrun
  cases hm₀ : runD wf maxPending (initD V E 2) u₀ with
  | none => rw [hm₀] at hrun; exact absurd hrun (by simp)
  | some m₀ =>
    rw [hm₀] at hrun
    dsimp only at hrun
    obtain rfl : m₀ = initD V E 2 :=
      c5_run_resolves_empty wf maxPending u₀ hu₀ (initD V E 2) m₀ rfl hm₀
    have hstep1 : step wf maxPending (initD V E 2) (DEvent.arrive ℓ) = some
        { entry := some 0, futures := [FutSt.unres], waitCount := 0,
          callers := Function.update (fun _ => CSt.ready) ℓ (CSt.waitL 0) } := by
      simp [step, initD, entryBlock, pendingSize, hm0]
    rw [runD_cons, hstep1] at hrun
    dsimp only at hrun
    rw [runD_append] at hrun
    cases hm₂ : runD wf maxPending
        { entry := some 0, futures := [FutSt.unres], waitCount := 0,
          callers := Function.update (fun _ => CSt.ready) ℓ (CSt.waitL 0) } u₁ with
    | none => rw [hm₂] at hrun; exact absurd hrun (by simp)
    | some m₂ =>
      rw [hm₂] at hrun
      dsimp only at hrun
      obtain ⟨hen₂, hf₂, hcal₂⟩ := c5_run_resolves wf maxPending e hwf0 u₁ hu₁ _ m₂ rfl
        (Or.inl rfl) hm₂
      have hcj₂ : m₂.callers j = CSt.ready := by
        rw [hcal₂]
        dsimp only
        rw [Function.update_noteq hjl]
      have hcl₂ : m₂.callers ℓ = CSt.waitL 0 := by
        rw [hcal₂]
        dsimp only
        rw [Function.update_same]
      have hstep2 : step wf maxPending m₂ (DEvent.arrive j) = some
          { m₂ with waitCount := m₂.waitCount + 1,
                    callers := Function.update m₂.callers j (CSt.waitJ 0) } := by
        simp [step, hcj₂, entryBlock, hen₂]
      rw [runD_cons, hstep2] at hrun
      dsimp only at hrun
      have hstart : c5Inv e v ℓ j
          { m₂ with waitCount := m₂.waitCount + 1,
                    callers := Function.update m₂.callers j (CSt.waitJ 0) } := by
        refine Or.inl ⟨hen₂, hf₂, ?_, ?_⟩
        · dsimp only
          rw [Function.update_noteq hlj]
          exact hcl₂
        · dsimp only
          rw [Function.update_same]
      have hall : ∀ ev ∈ u₂ ++ t₂, ev.isArrive = false := by
        intro ev hev
        rcases List.mem_append.1 hev with h | h
        · exact hu₂ ev h
        · exact ht₂ ev h
      have hfin : c5Inv e v ℓ j s :=
        c5Inv_run wf maxPending e v ℓ j hlj hmax hwf0 hwf1 (u₂ ++ t₂) hall _ s hstart hrun
      rcases hfin with ⟨he, hf, hcl, hcj⟩ | ⟨he, hf, hcl, hcj⟩ | ⟨he, hf, hcl, hcj⟩ |
        ⟨he, hf, hcl, hcj⟩ | ⟨he, hf, hcl, hcj⟩ | ⟨he, hf, hcl, hcj⟩ | ⟨he, hf, hcl, hcj⟩ |
        ⟨he, hf, hcl, hcj⟩
      · have hd := hdone.1
        rw [hcl] at hd
        simp [CSt.isRet] at hd
      · have hd := hdone.2
        rw [hcj] at hd
        simp [CSt.isRet] at hd
      · have hd := hdone.1
        rw [hcl] at hd
        simp [CSt.isRet] at hd
      · have hd := hdone.1
        rw [hcl] at hd
        simp [CSt.isRet] at hd
      · have hd := hdone.2
        rw [hcj] at hd
        simp [CSt.isRet] at hd
      · have hd := hdone.2
        rw [hcj] at hd
        simp [CSt.isRet] at hd
      · have hd := hdone.1
        rw [hcl] at hd
        simp [CSt.isRet] at hd
      · refine ⟨?_, hcl, hcj⟩
        rw [hf]
        rfl

/-- Witness for C5: concrete schedule — leader `0` arrives, joiner `1`
arrives, the first work execution fails, the leader surfaces the error,
the joiner retries as a new leader, the second execution succeeds, the
joiner returns `7`; two tasks in total. -/
theorem dedup_retry_C5_witness :
    ∃ s : DState Nat Unit 2,
      runD (fun k => if k = 0 then Except.error () else Except.ok 7) 1 (initD Nat Unit 2)
          ([] ++ (DEvent.arrive 0 :: ([] ++ (DEvent.arrive 1 ::
            ([DEvent.resolve 0] ++ [DEvent.resume 0, DEvent.resume 1, DEvent.resolve 1,
              DEvent.resume 1]))))) = some s ∧
      s.futures.length = 2 ∧ s.callers 0 = CSt.retErr () ∧ s.callers 1 = CSt.retOk 7 := by
  obtain ⟨h1, h2, h3⟩ := dedup_retry_C5
    (fun k => if k = 0 then Except.error () else Except.ok 7) 1 () 7 0 1 [] []
    [DEvent.resolve 0]
    [DEvent.resume 0, DEvent.resume 1, DEvent.resolve 1, DEvent.resume 1]
    _ (by decide) (by omega) rfl rfl (by decide) (by decide) (by decide) (by decide)
    rfl (by decide)
  exact ⟨_, rfl, h1, h2, h3⟩

/-- Witness for C10 at a concrete cache with no store handle: `get`
preserves everything and its stats change falls in the characterized
set. -/
theorem cache_get_frame_C10_witness :
    ((AIResponseCache.get (fun s => s) ⟨none, 3600, 17 / 20, ⟨0, 0, 0, 0⟩⟩
        ("p") ("m")).2).redis = none ∧
    (((AIResponseCache.get (fun s => s) ⟨none, 3600, 17 / 20, ⟨0, 0, 0, 0⟩⟩
        ("p") ("m")).2).stats = (⟨0, 0, 0, 0⟩ : CacheStats) ∨
     ((AIResponseCache.get (fun s => s) ⟨none, 3600, 17 / 20, ⟨0, 0, 0, 0⟩⟩
        ("p") ("m")).2).stats = bumpErrors ⟨0, 0, 0, 0⟩ ∨
     ((AIResponseCache.get (fun s => s) ⟨none, 3600, 17 / 20, ⟨0, 0, 0, 0⟩⟩
        ("p") ("m")).2).stats = bumpMisses ⟨0, 0, 0, 0⟩ ∨
     ((AIResponseCache.get (fun s => s) ⟨none, 3600, 17 / 20, ⟨0, 0, 0, 0⟩⟩
        ("p") ("m")).2).stats = bumpHits ⟨0, 0, 0, 0⟩ ∨
     ((AIResponseCache.get (fun s => s) ⟨none, 3600, 17 / 20, ⟨0, 0, 0, 0⟩⟩
        ("p") ("m")).2).stats = bumpErrors (bumpHits ⟨0, 0, 0, 0⟩)) := by
  have h := cache_get_frame_C10 (fun s => s) ⟨none, 3600, 17 / 20, ⟨0, 0, 0, 0⟩⟩ ("p") ("m")
  exact ⟨h.1, h.2.2.2⟩
